import Mathlib

/-!
Verification development for the suna agent backend.

We give a shallow embedding of the core of the repository:

* `backend/agentpress/context_manager.py` — the token-budget-aware context
  compressor (`ContextManager`),
* the auto-continue wrapper of `backend/agentpress/thread_manager.py`
  (`ThreadManager.run_thread.auto_continue_wrapper`),
* the run coordinator of `backend/run_agent_background.py`
  (`run_agent_background`).

Python message dicts are mutable objects that can be shared between lists, so
messages live in an explicit store (heap) and message lists are lists of
references into that store.  Message *contents* are JSON-like values; the code
never mutates a content value in place (it only reassigns the `content` slot
of a message dict), so contents are modelled as pure values.

External collaborators are modelled from the spec where the repository calls
out of its own code: `litellm.utils.token_counter` (token estimation) and the
Python `json` module (`json.dumps` / `json.loads`).
-/

namespace Suna

/-- JSON-like values: the value domain of Python message contents
(`str`, `int`, `bool`, `None`, `list`, `dict`). -/
inductive JVal where
  | str (s : String)
  | num (n : Int)
  | bool (b : Bool)
  | null
  | arr (elems : List JVal)
  | obj (fields : List (String × JVal))
deriving Repr, Inhabited

/-- The opening-brace character, written numerically. -/
def lbraceChar : Char := Char.ofNat 123

/-- The closing-brace character, written numerically. -/
def rbraceChar : Char := Char.ofNat 125

/-- Length of a Python string in characters (Python `len`). -/
def strLen (s : String) : Nat := s.data.length

/-- Python `s[:n]` for a nonnegative `n`. -/
def strTake (s : String) (n : Nat) : String := String.mk (s.data.take n)

/-- Python `s[n:]` for a nonnegative `n`. -/
def strDrop (s : String) (n : Nat) : String := String.mk (s.data.drop n)

/-- Python `s[-n:]` for `n > 0`: the last `n` characters (all of `s` if
`n ≥ len(s)`). -/
def strTakeLast (s : String) (n : Nat) : String :=
  String.mk (s.data.drop (s.data.length - n))

/-- Python `s[:n]` for an arbitrary (possibly negative) `n`. -/
def pySliceTo (s : String) (n : Int) : String :=
  if 0 ≤ n then strTake s n.toNat
  else String.mk (s.data.take (s.data.length - min s.data.length (-n).toNat))

/-- `listStartsWith s pat`: `pat` is a prefix of `s`. -/
def listStartsWith : List Char → List Char → Bool
  | _, [] => true
  | [], _ :: _ => false
  | a :: as, b :: bs => a == b && listStartsWith as bs

/-- Python `pat in s` substring containment on character lists. -/
def listHasSub : List Char → List Char → Bool
  | [], pat => pat.isEmpty
  | c :: t, pat => listStartsWith (c :: t) pat || listHasSub t pat

/-- Python `pat in s` substring containment on strings. -/
def strHasSub (s pat : String) : Bool := listHasSub s.data pat.data

/-- Python `s.lower()` (ASCII case folding suffices for the model names the
source matches on). -/
def strLower (s : String) : String :=
  String.mk (s.data.map (fun c => if 'A' ≤ c ∧ c ≤ 'Z' then Char.ofNat (c.toNat + 32) else c))

/-- JSON string escaping for one character (the escapes the embedding uses). -/
def escapeChar (c : Char) : List Char :=
  if c = '"' then ['\\', '"']
  else if c = '\\' then ['\\', '\\']
  else if c = '\n' then ['\\', 'n']
  else if c = '\t' then ['\\', 't']
  else if c = '\r' then ['\\', 'r']
  else [c]

/-- JSON string escaping. -/
def escapeStr (s : String) : List Char := s.data.flatMap escapeChar

/-- Argument of the single-function JSON serializer: a value, a list of
array elements, or a list of object fields. -/
inductive DumpArg where
  | one (v : JVal)
  | many (vs : List JVal)
  | fields (fs : List (String × JVal))

/-- Modelled from the spec: Python `json.dumps` with its default separators
`", "` and `": "` (the repository always calls `json.dumps` with defaults).
Restricted to integer numerals.  A single structural recursion on fuel (so
that it reduces definitionally); the fuel bounds the size of the value, and
`dumpsFuel` is far larger than any value in this development. -/
def dumpsF : Nat → DumpArg → List Char
  | 0, _ => []
  | fuel + 1, .one v =>
    match v with
    | .str s => '"' :: (escapeStr s ++ ['"'])
    | .num n => (toString n).data
    | .bool b => (if b then "true" else "false").data
    | .null => "null".data
    | .arr xs => '[' :: (dumpsF fuel (.many xs) ++ [']'])
    | .obj fs => lbraceChar :: (dumpsF fuel (.fields fs) ++ [rbraceChar])
  | _ + 1, .many [] => []
  | fuel + 1, .many [x] => dumpsF fuel (.one x)
  | fuel + 1, .many (x :: y :: t) =>
      dumpsF fuel (.one x) ++ ',' :: ' ' :: dumpsF fuel (.many (y :: t))
  | _ + 1, .fields [] => []
  | fuel + 1, .fields [(k, v)] =>
      '"' :: (escapeStr k ++ '"' :: ':' :: ' ' :: dumpsF fuel (.one v))
  | fuel + 1, .fields ((k, v) :: f :: t) =>
      '"' :: (escapeStr k ++ '"' :: ':' :: ' ' :: dumpsF fuel (.one v)) ++
        ',' :: ' ' :: dumpsF fuel (.fields (f :: t))

/-- Fuel for `dumpsF`: bounds the nesting depth plus list lengths of a
serialized value. -/
def dumpsFuel : Nat := 1000000

/-- `json.dumps` of a value, as a character list. -/
def JVal.dumps (v : JVal) : List Char := dumpsF dumpsFuel (.one v)

/-- `json.dumps` as a string. -/
def JVal.dumpsStr (v : JVal) : String := String.mk v.dumps

/-- Skip JSON whitespace. -/
def skipWs : List Char → List Char
  | [] => []
  | c :: t => if c = ' ' ∨ c = '\n' ∨ c = '\t' ∨ c = '\r' then skipWs t else c :: t

/-- Parse the body of a JSON string after the opening quote; returns the
decoded characters and the input after the closing quote. -/
def parseStrBody : Nat → List Char → Option (List Char × List Char)
  | _, '"' :: t => some ([], t)
  | fuel + 1, '\\' :: c :: t =>
      let dec : Option Char :=
        if c = '"' then some '"'
        else if c = '\\' then some '\\'
        else if c = '/' then some '/'
        else if c = 'n' then some '\n'
        else if c = 't' then some '\t'
        else if c = 'r' then some '\r'
        else none
      match dec with
      | none => none
      | some d => (parseStrBody fuel t).map (fun p => (d :: p.1, p.2))
  | fuel + 1, c :: t => (parseStrBody fuel t).map (fun p => (c :: p.1, p.2))
  | _, _ => none

/-- Split a leading run of decimal digits. -/
def readDigits : List Char → (List Char × List Char)
  | [] => ([], [])
  | c :: t =>
      if c.isDigit then
        let p := readDigits t
        (c :: p.1, p.2)
      else ([], c :: t)

/-- Decimal digits to a natural number. -/
def digitsToNat (ds : List Char) : Nat :=
  ds.foldl (fun acc c => 10 * acc + (c.toNat - 48)) 0

/-- Mode of the single-function JSON parser: a value, the fields of an object
after its opening brace, or the elements of an array after its opening
bracket (`first` records whether nothing has been parsed yet in the
object/array). -/
inductive PMode where
  | val
  | objf (first : Bool)
  | arrf (first : Bool)

/-- Modelled from the spec: Python `json.loads`, as a recursive-descent parser
(restricted to integer numerals and the escapes of `escapeChar`).  A single
structural recursion on fuel so that it reduces definitionally. -/
def parseF : Nat → PMode → List Char → Option (JVal × List Char)
  | 0, _, _ => none
  | fuel + 1, .val, input =>
    (match skipWs input with
    | [] => none
    | c :: t =>
      if c = '"' then
        (parseStrBody (fuel + 1) t).map (fun p => (.str (String.mk p.1), p.2))
      else if c.isDigit then
        let p := readDigits (c :: t)
        some (.num (Int.ofNat (digitsToNat p.1)), p.2)
      else if c = '-' then
        match readDigits t with
        | ([], _) => none
        | (ds, rest) => some (.num (-(Int.ofNat (digitsToNat ds))), rest)
      else if c = lbraceChar then
        parseF fuel (.objf true) t
      else if c = '[' then
        parseF fuel (.arrf true) t
      else if listStartsWith (c :: t) "true".data then
        some (.bool true, (c :: t).drop 4)
      else if listStartsWith (c :: t) "false".data then
        some (.bool false, (c :: t).drop 5)
      else if listStartsWith (c :: t) "null".data then
        some (.null, (c :: t).drop 4)
      else none)
  | fuel + 1, .objf first, input =>
    (match skipWs input with
    | [] => none
    | c :: t =>
      if c = rbraceChar ∧ first then some (.obj [], t)
      else
        let start : Option (List Char) :=
          if first then some (c :: t)
          else if c = ',' then some t else none
        match start with
        | none => none
        | some rest =>
          match skipWs rest with
          | '"' :: t2 =>
            (match parseStrBody (fuel + 1) t2 with
            | none => none
            | some (kcs, r2) =>
              match skipWs r2 with
              | ':' :: r3 =>
                (match parseF fuel .val r3 with
                | none => none
                | some (v, r4) =>
                  match skipWs r4 with
                  | c2 :: r5 =>
                    if c2 = rbraceChar then
                      some (.obj [(String.mk kcs, v)], r5)
                    else if c2 = ',' then
                      match parseF fuel (.objf false) (c2 :: r5) with
                      | some (.obj fs, r6) => some (.obj ((String.mk kcs, v) :: fs), r6)
                      | _ => none
                    else none
                  | [] => none)
              | _ => none)
          | _ => none)
  | fuel + 1, .arrf first, input =>
    (match skipWs input with
    | [] => none
    | c :: t =>
      if c = ']' ∧ first then some (.arr [], t)
      else
        let start : Option (List Char) :=
          if first then some (c :: t)
          else if c = ',' then some t else none
        match start with
        | none => none
        | some rest =>
          match parseF fuel .val rest with
          | none => none
          | some (v, r2) =>
            match skipWs r2 with
            | c2 :: r3 =>
              if c2 = ']' then some (.arr [v], r3)
              else if c2 = ',' then
                match parseF fuel (.arrf false) (c2 :: r3) with
                | some (.arr vs, r4) => some (.arr (v :: vs), r4)
                | _ => none
              else none
            | [] => none)

/-- Modelled from the spec: Python `json.loads s` — parse a complete JSON
document, failing on trailing garbage. -/
def jsonLoads (s : String) : Option JVal :=
  match parseF (s.data.length + 1) .val s.data with
  | none => none
  | some (v, rest) => if skipWs rest = [] then some v else none

/-- Python truthiness (`bool(v)`) of a JSON-like value. -/
def JVal.truthy : JVal → Bool
  | .str s => s.data ≠ []
  | .num n => n ≠ 0
  | .bool b => b
  | .null => false
  | .arr xs => ¬ xs.isEmpty
  | .obj fs => ¬ fs.isEmpty

/-- `key in d` for a Python dict. -/
def objHasKey (fs : List (String × JVal)) (k : String) : Bool :=
  fs.any (fun f => f.1 == k)

/-- `d[key]` lookup for a Python dict. -/
def objGet (fs : List (String × JVal)) (k : String) : Option JVal :=
  (fs.find? (fun f => f.1 == k)).map (fun f => f.2)

/-- `d[key] = v` for a Python dict: replaces the value in place when the key
exists (insertion order preserved), appends otherwise. -/
def objSet (fs : List (String × JVal)) (k : String) (v : JVal) : List (String × JVal) :=
  if objHasKey fs k then fs.map (fun f => if f.1 == k then (k, v) else f)
  else fs ++ [(k, v)]

/-- `del d[key]` for a Python dict (order of the remaining keys preserved). -/
def objDel (fs : List (String × JVal)) (k : String) : List (String × JVal) :=
  fs.filter (fun f => f.1 != k)

/-!
## Message model

A message is a Python dict; the compressor reads and writes the keys `role`,
`content` and `message_id`.  `none` for a field models both an absent key and
an explicit `None` (the source only accesses these keys through `.get` or
after a truthiness check, so the two are indistinguishable to it).

Message dicts are mutable and shared between Python lists, so they live in a
`Store` (heap); a Python list of messages is a `List Ref` of indices into the
store.  The only mutations the source performs are `msg["content"] = ...`
slot writes, modelled as `Store` updates at a `Ref`.
-/

/-- A message dict (the fields the compressor uses). -/
structure Msg where
  role : Option String := none
  content : Option JVal := none
  message_id : Option String := none
deriving Repr, Inhabited

/-- The heap of message dicts. -/
abbrev Store := List Msg

/-- A reference to a message dict (its index in the store). -/
abbrev Ref := Nat

/-- Dereference one message. -/
def getMsg (st : Store) (r : Ref) : Msg := st.getD r default

/-- Dereference a Python list of messages into the list of its current
values. -/
def resolveMsgs (st : Store) (refs : List Ref) : List Msg :=
  refs.map (getMsg st)

namespace ContextManager

/-- Modelled from the spec: `litellm.utils.token_counter`, the external token
estimator ("estimated token count").  We model a uniform, conservative
estimate of four tokens per character of message content (structured contents
count by the length of their JSON serialization); worst-case tokenizations of
unusual text reach several tokens per character.  The source calls it both
with and without a model name; the estimate is model-independent. -/
def contentChars : Option JVal → Nat
  | none => 0
  | some (.str s) => strLen s
  | some v => v.dumps.length

/-- Token estimate of one message. -/
def msgTokens (m : Msg) : Nat := 4 * contentChars m.content

/-- Token estimate of a message list (`token_counter(model=..., messages=...)`). -/
def token_counter (msgs : List Msg) : Nat := (msgs.map msgTokens).sum

/-- `ContextManager.is_tool_result_message` (context_manager.py:29-70). -/
def is_tool_result_message (m : Msg) : Bool :=
  match m.content with
  | none => false
  | some c =>
    if ¬ c.truthy then false
    else
      match c with
      | .str s =>
        if strHasSub s "ToolResult" then true
        else
          match jsonLoads s with
          | some (.obj fs) =>
            if objHasKey fs "tool_execution" then true
            else strHasSub s "interactive_elements"
          | _ => false
      | .obj fs => objHasKey fs "tool_execution" || objHasKey fs "interactive_elements"
      | _ => false

/-- The suffix appended by `compress_message` (`f"... (truncated)..."`,
context_manager.py:85). -/
def truncatedSuffix (message_id : Option String) : String :=
  let idStr := match message_id with
    | some s => s
    | none => "None"
  "... (truncated)" ++ "\n\nmessage_id \"" ++ idStr ++
    "\"\nUse expand-message tool to see contents"

/-- `ContextManager.compress_message` (context_manager.py:72-92).  Returns
`none` (Python `None`) when the content is neither a string nor a dict: the
`if`/`elif` has no `else` branch. -/
def compress_message (msg_content : Option JVal) (message_id : Option String)
    (max_length : Nat) : Option JVal :=
  match msg_content with
  | some (.str s) =>
      if strLen s > max_length then
        some (.str (strTake s max_length ++ truncatedSuffix message_id))
      else some (.str s)
  | some (.obj fs) =>
      let js := (JVal.obj fs).dumpsStr
      if strLen js > max_length then
        some (.str (strTake js max_length ++ truncatedSuffix message_id))
      else some (.obj fs)
  | _ => none

/-- The middle marker inserted by `safe_truncate` (context_manager.py:115). -/
def middleMarker : String := "\n\n... (middle truncated) ...\n\n"

/-- The trailing notice appended by `safe_truncate` (context_manager.py:115). -/
def tooLongNotice : String :=
  "\n\nThis message is too long, repeat relevant information in your response to remember it"

/-- Head-and-tail truncation of one string as `safe_truncate` performs it,
with Python slicing semantics (`keep_length` may be negative for tiny
`max_length`). -/
def safeTruncStr (s : String) (max_length : Nat) : String :=
  let keep_length : Int := (max_length : Int) - 150
  let start_length : Int := Int.fdiv keep_length 2
  let end_length : Int := keep_length - start_length
  let start_part := pySliceTo s start_length
  let end_part := if end_length > 0 then strTakeLast s end_length.toNat else ""
  start_part ++ middleMarker ++ end_part ++ tooLongNotice

/-- `ContextManager.safe_truncate` (context_manager.py:94-131).  Returns
`none` (Python `None`) when the content is neither a string nor a dict. -/
def safe_truncate (msg_content : Option JVal) (max_length : Nat) : Option JVal :=
  let max_length := min max_length 100000
  match msg_content with
  | some (.str s) =>
      if strLen s > max_length then some (.str (safeTruncStr s max_length))
      else some (.str s)
  | some (.obj fs) =>
      let js := (JVal.obj fs).dumpsStr
      if strLen js > max_length then some (.str (safeTruncStr js max_length))
      else some (.obj fs)
  | _ => none

/-- Python `max_tokens or (100 * 1000)` (context_manager.py:147): `or`
replaces both `None` and `0` by the default. -/
def maxTokensOr (max_tokens : Option Nat) : Nat :=
  match max_tokens with
  | none => 100 * 1000
  | some v => if v = 0 then 100 * 1000 else v

/-- The shared loop body of the three role-scoped compression passes
(context_manager.py:153-173, 197-217, 241-261): iterate over the message
dicts in reverse order, counting matches of `pred`; the first match (`_i = 1`,
the newest such message) is safe-truncated in place, every later match over
the per-message token threshold with a `message_id` is head-truncated in
place via `compress_message`. -/
def rolePassLoop (pred : Msg → Bool) (st : Store) (revRefs : List Ref)
    (i : Nat) (max_tokens_value token_threshold : Nat) : Store :=
  match revRefs with
  | [] => st
  | r :: rest =>
    let m := getMsg st r
    if pred m then
      let i := i + 1
      let st :=
        if token_counter [m] > token_threshold then
          if i > 1 then
            match m.message_id with
            | some mid =>
                st.set r { m with
                  content := compress_message m.content (some mid) (token_threshold * 3) }
            | none => st
          else
            st.set r { m with
              content := safe_truncate m.content (max_tokens_value * 2) }
        else st
      rolePassLoop pred st rest i max_tokens_value token_threshold
    else rolePassLoop pred st rest i max_tokens_value token_threshold

/-- Common shape of the three passes: compress only when the total estimate
exceeds the budget, scanning newest-to-oldest. -/
def rolePass (pred : Msg → Bool) (st : Store) (refs : List Ref)
    (max_tokens : Option Nat) (token_threshold : Nat) : Store :=
  let uncompressed_total_token_count := token_counter (resolveMsgs st refs)
  let max_tokens_value := maxTokensOr max_tokens
  if uncompressed_total_token_count > max_tokens_value then
    rolePassLoop pred st refs.reverse 0 max_tokens_value token_threshold
  else st

/-- `ContextManager.compress_tool_result_messages` (context_manager.py:133-175).
Mutates matching message dicts in place and returns the same list. -/
def compress_tool_result_messages (st : Store) (refs : List Ref)
    (max_tokens : Option Nat) (token_threshold : Nat) : Store :=
  rolePass is_tool_result_message st refs max_tokens token_threshold

/-- `ContextManager.compress_user_messages` (context_manager.py:177-219). -/
def compress_user_messages (st : Store) (refs : List Ref)
    (max_tokens : Option Nat) (token_threshold : Nat) : Store :=
  rolePass (fun m => m.role == some "user") st refs max_tokens token_threshold

/-- `ContextManager.compress_assistant_messages` (context_manager.py:221-264). -/
def compress_assistant_messages (st : Store) (refs : List Ref)
    (max_tokens : Option Nat) (token_threshold : Nat) : Store :=
  rolePass (fun m => m.role == some "assistant") st refs max_tokens token_threshold

/-- The per-message transformation of `remove_meta_messages`
(context_manager.py:269-290) on the current value of one message dict.
`none` models the `AttributeError` the source raises when
`msg_content_copy["tool_execution"]` has no `.copy()` (a string or number),
or the `TypeError` of `del` on a list.  On success, the `Bool` records
whether a fresh copy was made (`True`) or the original object was reused
(`False`). -/
def removeMetaMsg (m : Msg) : Option (Msg × Bool) :=
  let mc0 := m.content
  let mc := match mc0 with
    | some (.str s) =>
        match jsonLoads s with
        | some v => some v
        | none => mc0
    | _ => mc0
  match mc with
  | some (.obj fs) =>
      match objGet fs "tool_execution" with
      | some (.obj te) =>
          let te := objDel te "arguments"
          let fs := objSet fs "tool_execution" (.obj te)
          some ({ m with content := some (.str (JVal.obj fs).dumpsStr) }, true)
      | some (.arr xs) =>
          if xs.any (fun x => match x with | .str s => s == "arguments" | _ => false) then
            none
          else some ({ m with content := some (.str (JVal.obj fs).dumpsStr) }, true)
      | some _ => none
      | none => some ({ m with content := some (.str (JVal.obj fs).dumpsStr) }, true)
  | _ => some (m, false)

/-- `ContextManager.remove_meta_messages` (context_manager.py:266-291).
Builds a new list: messages whose content is (or parses to) a dict are
replaced by fresh copies with the volatile `tool_execution.arguments` field
stripped and the content re-serialized; all other messages are shared with
the input list.  The store only grows (nothing is mutated). -/
def remove_meta_messages (st : Store) (refs : List Ref) :
    Option (Store × List Ref) :=
  match refs with
  | [] => some (st, [])
  | r :: rest =>
    match removeMetaMsg (getMsg st r) with
    | none => none
    | some (m, fresh) =>
      let (st, r) := if fresh then (st ++ [m], st.length) else (st, r)
      match remove_meta_messages st rest with
      | none => none
      | some (st, rs) => some (st, r :: rs)

/-- `ContextManager.middle_out_messages` (context_manager.py:418-427): cap
the list at `max_messages` by keeping equal head and tail slices. -/
def middle_out_messages (refs : List Ref) (max_messages : Nat := 320) : List Ref :=
  if refs.length ≤ max_messages then refs
  else
    let keep_start := max_messages / 2
    let keep_end := max_messages - keep_start
    refs.take keep_start ++ refs.drop (refs.length - keep_end)

/-- `([system_message] + conversation_messages) if system_message else
conversation_messages` (context_manager.py:407,411). -/
def withSystem (sysRef : Option Ref) (conversation : List Ref) : List Ref :=
  match sysRef with
  | some s => s :: conversation
  | none => conversation

/-- The `while` loop of `compress_messages_by_omitting_messages`
(context_manager.py:384-408), with the `safety_limit` of 500 as fuel.
`sysRef` is the separated system message (if any); token counts are
recomputed over `withSystem sysRef conversation` after each removal batch. -/
def omitLoop (st : Store) (sysRef : Option Ref) (conversation : List Ref)
    (current_token_count max_allowed_tokens removal_batch_size
      min_messages_to_keep : Nat) : Nat → List Ref
  | 0 => conversation
  | fuel + 1 =>
    if ¬ (current_token_count > max_allowed_tokens) then conversation
    else if conversation.length ≤ min_messages_to_keep then conversation
    else
      let conversation' :=
        if conversation.length > removal_batch_size * 2 then
          let middle_start := conversation.length / 2 - removal_batch_size / 2
          let middle_end := middle_start + removal_batch_size
          conversation.take middle_start ++ conversation.drop middle_end
        else
          let messages_to_remove := min removal_batch_size (conversation.length / 2)
          if messages_to_remove > 0 then conversation.drop messages_to_remove
          else conversation
      if conversation'.length = conversation.length then conversation'
      else
        omitLoop st sysRef conversation'
          (token_counter (resolveMsgs st (withSystem sysRef conversation')))
          max_allowed_tokens removal_batch_size min_messages_to_keep fuel

/-- `ContextManager.compress_messages_by_omitting_messages`
(context_manager.py:347-416). -/
def compress_messages_by_omitting_messages (st : Store) (refs : List Ref)
    (max_tokens : Option Nat := some 41000) (removal_batch_size : Nat := 10)
    (min_messages_to_keep : Nat := 10) : Option (Store × List Ref) :=
  match refs with
  | [] => some (st, refs)
  | r0 :: _ =>
    match remove_meta_messages st refs with
    | none => none
    | some (st1, refs1) =>
      let initial_token_count := token_counter (resolveMsgs st1 refs1)
      let max_allowed_tokens := maxTokensOr max_tokens
      if initial_token_count ≤ max_allowed_tokens then some (st1, refs1)
      else
        let system_message : Option Ref :=
          if (getMsg st1 r0).role == some "system" then some r0 else none
        let conversation_messages :=
          match system_message with
          | some _ => refs1.drop 1
          | none => refs1
        let conversation :=
          omitLoop st1 system_message conversation_messages initial_token_count
            max_allowed_tokens removal_batch_size min_messages_to_keep 500
        some (st1, withSystem system_message conversation)

/-- The model-family budget table of `compress_messages`
(context_manager.py:304-313): the `max_tokens` parameter is overwritten by a
substring match on the lowercased model name. -/
def modelBudget (llm_model : String) : Nat :=
  let lower := strLower llm_model
  if strHasSub lower "sonnet" then 200 * 1000 - 64000 - 28000
  else if strHasSub lower "gpt" then 128 * 1000 - 28000
  else if strHasSub lower "gemini" then 1000 * 1000 - 300000
  else if strHasSub lower "deepseek" then 128 * 1000 - 28000
  else 41 * 1000 - 10000

/-- `ContextManager.compress_messages` (context_manager.py:293-345).
`max_iterations` counts the remaining threshold-halving rounds; at zero the
structural-omission fallback runs on the (possibly mutated in place) original
message list.  The hard count cap `middle_out_messages` is applied to every
non-fallback return. -/
def compress_messages (st : Store) (refs : List Ref) (llm_model : String)
    (token_threshold : Nat := 4096) (max_iterations : Nat := 5) :
    Option (Store × List Ref) :=
  let max_tokens := modelBudget llm_model
  match remove_meta_messages st refs with
  | none => none
  | some (st1, refs1) =>
    let st2 := compress_tool_result_messages st1 refs1 (some max_tokens) token_threshold
    let st3 := compress_user_messages st2 refs1 (some max_tokens) token_threshold
    let st4 := compress_assistant_messages st3 refs1 (some max_tokens) token_threshold
    let compressed_token_count := token_counter (resolveMsgs st4 refs1)
    match max_iterations with
    | 0 => compress_messages_by_omitting_messages st4 refs (some max_tokens)
    | n + 1 =>
      if compressed_token_count > max_tokens then
        match compress_messages st4 refs llm_model (token_threshold / 2) n with
        | none => none
        | some (st5, refs5) => some (st5, middle_out_messages refs5)
      else some (st4, middle_out_messages refs1)

end ContextManager

/-!
## Turn orchestrator: the auto-continue wrapper

`ThreadManager.run_thread.auto_continue_wrapper` (thread_manager.py:443-524).
One sub-iteration (`_run_once` plus consuming its response generator) is an
external collaborator; its observable behaviour is either an error dict or a
stream of typed chunks that may end in a raised exception.  The wrapper is a
loop over these behaviours.
-/

namespace ThreadManager

/-- A response chunk as the wrapper inspects it (a Python dict with a `type`
field; `finish` chunks carry a `finish_reason`, `content` chunks a string,
error status dicts a message). -/
inductive Chunk where
  | finish (reason : String)
  | content (s : String)
  | statusError (msg : String)
  | other
deriving Repr, DecidableEq

/-- The observable behaviour of one `_run_once` sub-iteration: either
`_run_once` returned an error dict (thread_manager.py:436-440, 457-460), or
it returned a generator that yields `chunks` and then optionally raises an
exception with message `exn` (thread_manager.py:491-507). -/
inductive IterResult where
  | errDict (msg : String)
  | stream (chunks : List Chunk) (exn : Option String)
deriving Repr, DecidableEq

/-- The final state of the wrapper: the chunks it yielded, the auto-continue
counter, the (possibly fallback-switched) model, the sub-iteration behaviours
it did not consume, and whether it ran out of supplied behaviours while the
loop still wanted to run another sub-iteration. -/
structure WrapResult where
  out : List Chunk
  count : Nat
  model : String
  rest : List IterResult
  starved : Bool
deriving Repr, DecidableEq

/-- The chunk loop of one sub-iteration (thread_manager.py:465-483): suppress
`finish_reason == 'tool_calls'` chunks (setting the continue flag and
incrementing the counter) when auto-continue is enabled, clear the flag on
`finish_reason == 'xml_tool_limit_reached'` but still yield it, and yield
everything else.  Returns the yielded chunks, the continue flag, and the
counter. -/
def processChunks (native_max_auto_continues : Nat) :
    List Chunk → Bool → Nat → List Chunk × Bool × Nat
  | [], auto_continue, count => ([], auto_continue, count)
  | c :: rest, auto_continue, count =>
    match c with
    | .finish reason =>
      if reason = "tool_calls" ∧ native_max_auto_continues > 0 then
        processChunks native_max_auto_continues rest true (count + 1)
      else
        let auto_continue := if reason = "xml_tool_limit_reached" then false else auto_continue
        let p := processChunks native_max_auto_continues rest auto_continue count
        (c :: p.1, p.2.1, p.2.2)
    | _ =>
      let p := processChunks native_max_auto_continues rest auto_continue count
      (c :: p.1, p.2.1, p.2.2)

/-- The substring by which the wrapper recognizes a transient provider
overload (thread_manager.py:492). -/
def overloadMarker : String := "AnthropicException - Overloaded"

/-- The synthetic content chunk emitted when the continue budget is exhausted
(thread_manager.py:521-524). -/
def limitChunk (native_max_auto_continues : Nat) : Chunk :=
  .content ("\n[Agent reached maximum auto-continue limit of " ++
    toString native_max_auto_continues ++ "]")

/-- `auto_continue_wrapper` (thread_manager.py:443-524): the `while` loop
over sub-iterations, threading the flag, the counter and the model name; on
an overload exception the model is switched to the OpenRouter fallback and
the loop continues without touching the counter; on any other exception (or
an error dict) an error status is yielded and the generator returns,
skipping the final limit check. -/
def auto_continue_wrapper (iters : List IterResult)
    (native_max_auto_continues : Nat) (llm_model : String)
    (auto_continue : Bool) (auto_continue_count : Nat) (acc : List Chunk) :
    WrapResult :=
  if ¬ (auto_continue ∧ (native_max_auto_continues = 0 ∨
      auto_continue_count < native_max_auto_continues)) then
    -- while condition false: run the final limit check
    if auto_continue ∧ auto_continue_count ≥ native_max_auto_continues then
      ⟨acc ++ [limitChunk native_max_auto_continues], auto_continue_count,
        llm_model, iters, false⟩
    else ⟨acc, auto_continue_count, llm_model, iters, false⟩
  else
    match iters with
    | [] => ⟨acc, auto_continue_count, llm_model, [], true⟩
    | it :: rest =>
      -- body: auto_continue is reset to False at the top
      match it with
      | .errDict msg =>
          -- yield the error dict and return (skips the final limit check)
          ⟨acc ++ [Chunk.statusError msg], auto_continue_count, llm_model, rest, false⟩
      | .stream chunks exn =>
        let p := processChunks native_max_auto_continues chunks false auto_continue_count
        let acc := acc ++ p.1
        let auto_continue := p.2.1
        let count := p.2.2
        match exn with
        | none =>
          if ¬ auto_continue then
            -- break: fall through to the final limit check with the flag false
            ⟨acc, count, llm_model, rest, false⟩
          else
            auto_continue_wrapper rest native_max_auto_continues llm_model true count acc
        | some msg =>
          if strHasSub msg overloadMarker then
            -- overload: switch to the OpenRouter fallback and continue
            auto_continue_wrapper rest native_max_auto_continues
              ("openrouter/" ++ llm_model) true count acc
          else
            -- other exception: yield an error status and return
            ⟨acc ++ [Chunk.statusError ("Error in thread processing: " ++ msg)],
              count, llm_model, rest, false⟩

end ThreadManager

/-!
## Run coordinator

`run_agent_background` (run_agent_background.py:64-352).  Redis is an external
key-value/list/pub-sub service; we model the state the coordinator touches.
The orchestrator stream (`run_agent`) is an external collaborator modelled as
the list of events it would yield; cooperative cancellation is modelled by a
predicate `stopAt i` giving the value of `stop_signal_received` when the
coordinator is about to process the `i`-th event.
-/

namespace RunCoordinator

/-- The Redis state the coordinator touches, plus the source-of-truth run
record written by `update_agent_run_status`. -/
structure SysState where
  kv : List (String × String) := []
  lists : List (String × List String) := []
  pubs : List (String × String) := []
  dbStatus : Option (String × Option String) := none
deriving Repr, DecidableEq

/-- `redis.get`. -/
def kvGet (st : SysState) (k : String) : Option String :=
  (st.kv.find? (fun p => p.1 == k)).map (fun p => p.2)

/-- `redis.set` (unconditional overwrite). -/
def kvSet (st : SysState) (k v : String) : SysState :=
  if (st.kv.any (fun p => p.1 == k)) then
    { st with kv := st.kv.map (fun p => if p.1 == k then (k, v) else p) }
  else { st with kv := (k, v) :: st.kv }

/-- `redis.set(..., nx=True)`: set-if-absent, returning whether the set
happened. -/
def kvSetNX (st : SysState) (k v : String) : SysState × Bool :=
  match kvGet st k with
  | some _ => (st, false)
  | none => ({ st with kv := (k, v) :: st.kv }, true)

/-- `redis.delete`. -/
def kvDelete (st : SysState) (k : String) : SysState :=
  { st with kv := st.kv.filter (fun p => p.1 != k) }

/-- `redis.rpush`. -/
def rpush (st : SysState) (k v : String) : SysState :=
  match st.lists.find? (fun p => p.1 == k) with
  | some _ =>
      { st with lists := st.lists.map (fun p => if p.1 == k then (k, p.2 ++ [v]) else p) }
  | none => { st with lists := st.lists ++ [(k, [v])] }

/-- `redis.lrange key 0 -1`. -/
def lrangeAll (st : SysState) (k : String) : List String :=
  match st.lists.find? (fun p => p.1 == k) with
  | some p => p.2
  | none => []

/-- `redis.publish`: append to the log of published notifications. -/
def publish (st : SysState) (channel msg : String) : SysState :=
  { st with pubs := st.pubs ++ [(channel, msg)] }

/-- An event yielded by the orchestrator stream (`run_agent`): a dict with a
`type`, optionally a `status` and a `message`. -/
structure AEvent where
  type : String
  status : Option String := none
  message : Option String := none
deriving Repr, DecidableEq

/-- Modelled from the spec: the `json.dumps` serialization of an event as it
is appended to the response list; an injective rendering suffices for the
coordinator, which treats entries as opaque strings. -/
def dumpEvent (e : AEvent) : String :=
  e.type ++ "|" ++ (match e.status with | some s => s | none => "-") ++ "|" ++
    (match e.message with | some m => m | none => "-")

/-- The event loop of `run_agent_background` (run_agent_background.py:236-257):
before each event, check the stop flag; otherwise append the event to the
response list, publish a payload-free notification, and stop on a terminal
status event.  Returns the final state, the `final_status`, and the
`error_message`. -/
def coordLoop (st : SysState) (response_list_key response_channel : String)
    (stopAt : Nat → Bool) : List AEvent → Nat → SysState × String × Option String
  | [], _ => (st, "running", none)
  | e :: rest, i =>
    if stopAt i then (st, "stopped", none)
    else
      let st := rpush st response_list_key (dumpEvent e)
      let st := publish st response_channel "new"
      if e.type = "status" ∧
          (e.status = some "completed" ∨ e.status = some "failed" ∨
            e.status = some "stopped") then
        let status := match e.status with
          | some s => s
          | none => "running"
        let err :=
          if e.status = some "failed" ∨ e.status = some "stopped" then
            some (match e.message with
              | some m => m
              | none => "Run ended with status: " ++ status)
          else none
        (st, status, err)
      else coordLoop st response_list_key response_channel stopAt rest (i + 1)

/-- `run_agent_background` (run_agent_background.py:64-352): the idempotency
lock acquisition (lines 93-116), the event loop, terminal handling (synthetic
completion, durable status update, final control signal) and the `finally`
cleanup (delete the instance-active key and the run lock; TTL updates do not
change modelled state).  Returns the final system state and the status
written to the database (`none` when the coordinator exited as a duplicate
no-op before executing). -/
def run_agent_background (st0 : SysState) (agent_run_id instance_id : String)
    (events : List AEvent) (stopAt : Nat → Bool) : SysState × Option String :=
  let run_lock_key := "agent_run_lock:" ++ agent_run_id
  let (st1, lock_acquired) := kvSetNX st0 run_lock_key instance_id
  let proceed : Option SysState :=
    if lock_acquired then some st1
    else
      match kvGet st1 run_lock_key with
      | some _ => none
      | none =>
        let (st2, acq2) := kvSetNX st1 run_lock_key instance_id
        if acq2 then some st2 else none
  match proceed with
  | none => (st1, none)
  | some st =>
    let response_list_key := "agent_run:" ++ agent_run_id ++ ":responses"
    let response_channel := "agent_run:" ++ agent_run_id ++ ":new_response"
    let global_control_channel := "agent_run:" ++ agent_run_id ++ ":control"
    let instance_active_key := "active_run:" ++ instance_id ++ ":" ++ agent_run_id
    let st := kvSet st instance_active_key "running"
    let (st, final_status, error_message) :=
      coordLoop st response_list_key response_channel stopAt events 0
    let (st, final_status) :=
      if final_status = "running" then
        let completion_message : AEvent :=
          { type := "status", status := some "completed",
            message := some "Agent run completed successfully" }
        let st := rpush st response_list_key (dumpEvent completion_message)
        let st := publish st response_channel "new"
        (st, "completed")
      else (st, final_status)
    let _all_responses := lrangeAll st response_list_key
    let st := { st with dbStatus := some (final_status, error_message) }
    let control_signal :=
      if final_status = "completed" then "END_STREAM"
      else if final_status = "failed" then "ERROR"
      else "STOP"
    let st := publish st global_control_channel control_signal
    -- finally: cleanup (TTL updates do not change modelled state)
    let st := kvDelete st instance_active_key
    let st := kvDelete st run_lock_key
    (st, some final_status)

end RunCoordinator

/-!
## Concrete instances used by counterexamples and witnesses
-/

namespace ContextManager

/-- C1 counterexample input: nine messages no compression stage can shrink
(no matching role, plain non-JSON string content), each estimated above a
tenth of the default budget. -/
def c1Msg : Msg := { role := none, content := some (.str (String.mk (List.replicate 900 'q'))) }

/-- C1 counterexample store. -/
def c1Store : Store := List.replicate 9 c1Msg

/-- C1 counterexample message list. -/
def c1Refs : List Ref := List.range 9

/-- A message dict that `remove_meta_messages` shares with the input list
rather than copying: its content is not a dict and, if a string, does not
parse to a JSON object. -/
def removeMetaShares (m : Msg) : Bool :=
  match m.content with
  | some (.obj _) => false
  | some (.str s) =>
      (match jsonLoads s with
      | some (.obj _) => false
      | _ => true)
  | _ => true

/-- The value-level effect of `remove_meta_messages` on one message: the
stripped copy when one is made, the message itself otherwise. -/
def stripMsgValue (m : Msg) : Msg :=
  match removeMetaMsg m with
  | some p => p.1
  | none => m

namespace C2Data

/-- A small filler message never touched by any stage. -/
def tinyMsg : Msg := { role := none, content := some (.str (String.mk (List.replicate 20 'a'))) }

/-- Payload of the large structured messages; starts with `ToolResult` so the
serialized copies are recognized as tool results. -/
def bigPayload : String := "ToolResult" ++ String.mk (List.replicate 981 'x')

/-- A long `message_id`, inflating the head-truncation suffix. -/
def bigId : String := String.mk (List.replicate 120 'i')

/-- A large user message with dict content (copied by metadata stripping). -/
def bigMsg : Msg :=
  { role := some "user", content := some (.obj [("k", .str bigPayload)]),
    message_id := some bigId }

/-- The JSON serialization of `bigMsg`'s content. -/
def bigDump : String := "\x7b\"k\": \"" ++ bigPayload ++ "\"\x7d"

/-- The stripped copy `remove_meta_messages` makes of `bigMsg`. -/
def bigCopy : Msg := { role := some "user", content := some (.str bigDump), message_id := some bigId }

/-- `bigCopy` after head truncation at threshold 256. -/
def cmpCopy : Msg :=
  { role := some "user", content := some (.str (strTake bigDump 768 ++ truncatedSuffix (some bigId))),
    message_id := some bigId }

/-- `bigCopy` after head truncation at threshold 128. -/
def cmp128Copy : Msg :=
  { role := some "user", content := some (.str (strTake bigDump 384 ++ truncatedSuffix (some bigId))),
    message_id := some bigId }

/-- One generation of stripped copies. -/
def R8 : Store := List.replicate 8 bigCopy

/-- A generation of copies after the threshold-256 pass (seven older messages
truncated, the newest kept). -/
def CmpB : Store := List.replicate 7 cmpCopy ++ [bigCopy]

/-- A generation of copies after the threshold-128 pass. -/
def Cmp128B : Store := List.replicate 7 cmp128Copy ++ [bigCopy]

/-- The C2 input store: seven fillers and eight large structured messages. -/
def S1 : Store := List.replicate 7 tinyMsg ++ List.replicate 8 bigMsg

/-- The C2 input message list. -/
def c2Refs : List Ref := List.range 15

/-- Store after the first compression level. -/
def S2 : Store := S1 ++ R8

/-- Store after the second compression level. -/
def S3 : Store := S2 ++ R8

/-- Store after the third compression level. -/
def S4 : Store := S3 ++ R8

/-- Store after the fourth compression level. -/
def S5 : Store := S4 ++ R8

/-- Store after the fifth compression level (threshold 256: real truncation). -/
def S6 : Store := S5 ++ CmpB

/-- Store after the passes of the fallback level (threshold 128). -/
def S7 : Store := S6 ++ Cmp128B

/-- Final store of the first `compress_messages` application. -/
def SA : Store := S7 ++ R8

/-- Final message list of the first application: the structural-omission
fallback kept the eight freshly stripped copies of the large messages,
discarding all per-message compression. -/
def RA : List Ref := [63, 64, 65, 66, 67, 68, 69, 70]

/-- Stores of the second application, one per level. -/
def SB1 : Store := SA ++ R8

/-- Store after the second level of the second application. -/
def SB2 : Store := SB1 ++ R8

/-- Store after the third level of the second application. -/
def SB3 : Store := SB2 ++ R8

/-- Store after the fourth level of the second application. -/
def SB4 : Store := SB3 ++ R8

/-- Final store of the second application: at threshold 256 it stays within
budget with the seven older messages truncated. -/
def SBF : Store := SB4 ++ CmpB

/-- Final message list of the second application. -/
def RM : List Ref := [103, 104, 105, 106, 107, 108, 109, 110]

/-- The stripped list of a first-application level: the seven fillers shared,
the eight large messages replaced by fresh copies starting at `base`. -/
def r1of (base : Nat) : List Ref :=
  [0, 1, 2, 3, 4, 5, 6, base, base + 1, base + 2, base + 3, base + 4, base + 5, base + 6, base + 7]

/-- The stripped list of a second-application level: all eight messages
replaced by fresh copies starting at `base`. -/
def r2of (base : Nat) : List Ref :=
  [base, base + 1, base + 2, base + 3, base + 4, base + 5, base + 6, base + 7]

end C2Data

/-- C3 counterexample: a shared (plain string content) tool-result message
with a `message_id`, large enough to be head-truncated in place. -/
def c3Msg : Msg :=
  { role := none, content := some (.str ("ToolResult" ++ String.mk (List.replicate 790 'x'))),
    message_id := some (String.mk (List.replicate 120 'i')) }

/-- `c3Msg` after the threshold-256 and threshold-128 truncations written
back in place. -/
def c3MsgAfter : Msg :=
  { role := none,
    content := some (.str (strTake ("ToolResult" ++ String.mk (List.replicate 790 'x')) 384 ++
      truncatedSuffix (some (String.mk (List.replicate 120 'i'))))),
    message_id := some (String.mk (List.replicate 120 'i')) }

/-- C3 counterexample store. -/
def c3Store : Store := List.replicate 11 c3Msg

/-- C3 counterexample message list. -/
def c3Refs : List Ref := List.range 11

/-- C4 counterexample: a tiny message, repeated beyond the hard count cap. -/
def c4Msg : Msg := { role := some "user", content := some (.str "hi"), message_id := some "m" }

/-- C4 counterexample store: 321 tiny messages, well under every budget. -/
def c4Store : Store := List.replicate 321 c4Msg

/-- C4 counterexample message list. -/
def c4Refs : List Ref := List.range 321

/-- C5 counterexample content: a tool-result string of 105000 characters —
above the hard 100000-character cap of `safe_truncate`, yet below twice the
Sonnet budget (216000). -/
def c5Content : String := String.mk ("ToolResult".data ++ List.replicate 104990 'x')

/-- C5 counterexample message (the single, hence newest, tool result). -/
def c5Msg : Msg := { role := none, content := some (.str c5Content), message_id := some "id5" }

/-- C5 counterexample store. -/
def c5Store : Store := [c5Msg]

/-- C10: a message whose content is an ordered list of typed blocks. -/
def c10Msg : Msg :=
  { role := some "user", content := some (.arr [.str (String.mk (List.replicate 960 'x'))]),
    message_id := some "m10" }

/-- C10 counterexample store: nine list-content user messages. -/
def c10Store : Store := List.replicate 9 c10Msg

/-- C10 counterexample message list. -/
def c10Refs : List Ref := List.range 9

end ContextManager

/-!
## Supporting lemmas for the context compressor
-/

namespace ContextManager

theorem remove_meta_length {st : Store} {refs : List Ref} {st1 : Store} {refs1 : List Ref}
    (h : remove_meta_messages st refs = some (st1, refs1)) : refs1.length = refs.length := by
  induction refs generalizing st st1 refs1 with
  | nil => simp [remove_meta_messages] at h; simp [h.2.symm]
  | cons r rest ih =>
    rw [remove_meta_messages] at h
    rcases hm : removeMetaMsg (getMsg st r) with _ | ⟨m, fresh⟩ <;> rw [hm] at h
    · exact absurd h (by simp)
    · rcases fresh with _ | _ <;> simp only [Bool.false_eq_true, if_true, if_false] at h <;>
      · rcases hrec : remove_meta_messages _ rest with _ | ⟨st2, rs⟩ <;> rw [hrec] at h
        · exact absurd h (by simp)
        · simp only [Option.some.injEq, Prod.mk.injEq] at h
          obtain ⟨-, hrefs⟩ := h
          simp [← hrefs, ih hrec]

theorem token_counter_sublist (st : Store) {l1 l2 : List Ref} (h : l1.Sublist l2) :
    token_counter (resolveMsgs st l1) ≤ token_counter (resolveMsgs st l2) := by
  have hmap : (resolveMsgs st l1).Sublist (resolveMsgs st l2) := h.map (getMsg st)
  have hmap2 : ((resolveMsgs st l1).map msgTokens).Sublist ((resolveMsgs st l2).map msgTokens) :=
    hmap.map msgTokens
  exact hmap2.sum_le_sum (by intro a _; exact Nat.zero_le a)

theorem take_append_drop_sublist (l : List Ref) (p q : Nat) (h : p ≤ q) :
    (l.take p ++ l.drop q).Sublist l := by
  conv_rhs => rw [← List.take_append_drop p l]
  refine List.Sublist.append (List.Sublist.refl _) ?_
  have : l.drop q = (l.drop p).drop (q - p) := by
    rw [List.drop_drop, Nat.add_sub_cancel' h]
  rw [this]
  exact List.drop_sublist _ _

theorem middle_out_sublist (refs : List Ref) (n : Nat) :
    (middle_out_messages refs n).Sublist refs := by
  rw [middle_out_messages]
  split
  · exact List.Sublist.refl _
  · rename_i hlen
    exact take_append_drop_sublist refs (n / 2) (refs.length - (n - n / 2))
      (by omega)

theorem middle_out_length_le (refs : List Ref) (n : Nat) :
    (middle_out_messages refs n).length ≤ refs.length :=
  (middle_out_sublist refs n).length_le

theorem middle_out_of_le {refs : List Ref} {n : Nat} (h : refs.length ≤ n) :
    middle_out_messages refs n = refs := by
  rw [middle_out_messages, if_pos h]

theorem modelBudget_pos (model : String) : 0 < modelBudget model := by
  rw [modelBudget]
  split <;> try omega
  split <;> try omega
  split <;> try omega
  split <;> omega

theorem withSystem_length (sysRef : Option Ref) (conv : List Ref) :
    (withSystem sysRef conv).length ≤ conv.length + 1 := by
  cases sysRef <;> simp [withSystem]

theorem omitLoop_spec (st : Store) (sysRef : Option Ref) :
    ∀ (fuel : Nat) (conversation : List Ref) (cur maxA : Nat),
    (cur = token_counter (resolveMsgs st (withSystem sysRef conversation)) ∨ maxA < cur) →
    token_counter (resolveMsgs st
        (withSystem sysRef (omitLoop st sysRef conversation cur maxA 10 10 fuel))) ≤ maxA ∨
      (omitLoop st sysRef conversation cur maxA 10 10 fuel).length ≤ 10 ∨
      5 * fuel < conversation.length := by
  intro fuel
  induction fuel with
  | zero =>
    intro conversation cur maxA _
    rw [omitLoop]
    by_cases hl : conversation.length = 0
    · exact Or.inr (Or.inl (by omega))
    · exact Or.inr (Or.inr (by omega))
  | succ fuel ih =>
    intro conversation cur maxA hcur
    rw [omitLoop]
    by_cases hbudget : ¬ (cur > maxA)
    · rw [if_pos hbudget]
      rcases hcur with hcur | hcur
      · exact Or.inl (by omega)
      · omega
    · rw [if_neg hbudget]
      by_cases hfloor : conversation.length ≤ 10
      · rw [if_pos hfloor]
        exact Or.inr (Or.inl hfloor)
      · rw [if_neg hfloor]
        simp only
        by_cases hbig : conversation.length > 10 * 2
        · rw [if_pos hbig]
          have hms : conversation.length / 2 - 10 / 2 + 10 ≤ conversation.length := by omega
          have hlen : (conversation.take (conversation.length / 2 - 10 / 2) ++
              conversation.drop (conversation.length / 2 - 10 / 2 + 10)).length =
              conversation.length - 10 := by
            simp [List.length_take, List.length_drop]
            omega
          rw [if_neg (by omega)]
          rcases ih _ _ maxA (Or.inl rfl) with h | h | h
          · exact Or.inl h
          · exact Or.inr (Or.inl h)
          · exact Or.inr (Or.inr (by omega))
        · rw [if_neg hbig]
          have htr : min 10 (conversation.length / 2) > 0 := by omega
          rw [if_pos htr]
          have hlen : (conversation.drop (min 10 (conversation.length / 2))).length =
              conversation.length - min 10 (conversation.length / 2) := by
            simp [List.length_drop]
          rw [if_neg (by omega)]
          rcases ih _ _ maxA (Or.inl rfl) with h | h | h
          · exact Or.inl h
          · exact Or.inr (Or.inl h)
          · exact Or.inr (Or.inr (by omega))

theorem omit_spec {st : Store} {refs : List Ref} {maxT : Option Nat}
    {st1 : Store} {refs1 : List Ref}
    (h : compress_messages_by_omitting_messages st refs maxT 10 10 = some (st1, refs1)) :
    token_counter (resolveMsgs st1 refs1) ≤ maxTokensOr maxT ∨
      refs1.length ≤ 11 ∨ 2500 < refs.length := by
  rcases refs with _ | ⟨r0, rest⟩
  · rw [compress_messages_by_omitting_messages] at h
    simp only [Option.some.injEq, Prod.mk.injEq] at h
    exact Or.inr (Or.inl (by simp [← h.2]))
  · rw [compress_messages_by_omitting_messages] at h
    rcases hrm : remove_meta_messages st (r0 :: rest) with _ | ⟨st2, refs2⟩ <;> rw [hrm] at h
    · exact absurd h (by simp)
    · simp only at h
      by_cases hinit : token_counter (resolveMsgs st2 refs2) ≤ maxTokensOr maxT
      · rw [if_pos hinit] at h
        simp only [Option.some.injEq, Prod.mk.injEq] at h
        exact Or.inl (h.1 ▸ h.2 ▸ hinit)
      · rw [if_neg hinit] at h
        simp only [Option.some.injEq, Prod.mk.injEq] at h
        obtain ⟨hst, hrefs⟩ := h
        rcases hsys : (if (getMsg st2 r0).role == some "system" then some r0 else none)
          with _ | s
        all_goals rw [hsys] at hrefs
        all_goals simp only at hrefs
        · rcases omitLoop_spec st2 none 500 refs2 (token_counter (resolveMsgs st2 refs2))
              (maxTokensOr maxT) (Or.inr (by omega)) with hs | hs | hs
          · exact Or.inl (hst ▸ hrefs ▸ hs)
          · refine Or.inr (Or.inl ?_)
            rw [← hrefs]
            have := withSystem_length (none : Option Ref)
              (omitLoop st2 none refs2 (token_counter (resolveMsgs st2 refs2))
                (maxTokensOr maxT) 10 10 500)
            omega
          · refine Or.inr (Or.inr ?_)
            have hlen2 : refs2.length = (r0 :: rest).length := remove_meta_length hrm
            rw [List.length_cons] at hlen2
            simp only [List.length_cons]
            omega
        · rcases omitLoop_spec st2 (some s) 500 (refs2.drop 1)
              (token_counter (resolveMsgs st2 refs2))
              (maxTokensOr maxT) (Or.inr (by omega)) with hs | hs | hs
          · exact Or.inl (hst ▸ hrefs ▸ hs)
          · refine Or.inr (Or.inl ?_)
            rw [← hrefs]
            have := withSystem_length (some s)
              (omitLoop st2 (some s) (refs2.drop 1) (token_counter (resolveMsgs st2 refs2))
                (maxTokensOr maxT) 10 10 500)
            omega
          · refine Or.inr (Or.inr ?_)
            have hlen2 : refs2.length = (r0 :: rest).length := remove_meta_length hrm
            rw [List.length_cons] at hlen2
            have hdl : (refs2.drop 1).length = refs2.length - 1 := by simp
            simp only [List.length_cons]
            omega

theorem compress_spec : ∀ (n : Nat) (st : Store) (refs : List Ref) (model : String)
    (t : Nat) {st2 : Store} {refs2 : List Ref},
    compress_messages st refs model t n = some (st2, refs2) →
    token_counter (resolveMsgs st2 refs2) ≤ modelBudget model ∨
      refs2.length ≤ 11 ∨ 2500 < refs.length := by
  intro n
  induction n with
  | zero =>
    intro st refs model t st2 refs2 h
    rw [compress_messages] at h
    rcases hrm : remove_meta_messages st refs with _ | ⟨stA, refsA⟩ <;> rw [hrm] at h
    · exact absurd h (by simp)
    · simp only at h
      have := omit_spec h
      have hb : maxTokensOr (some (modelBudget model)) = modelBudget model := by
        have := modelBudget_pos model
        simp [maxTokensOr]
        omega
      rw [hb] at this
      exact this
  | succ n ih =>
    intro st refs model t st2 refs2 h
    rw [compress_messages] at h
    rcases hrm : remove_meta_messages st refs with _ | ⟨stA, refsA⟩ <;> rw [hrm] at h
    · exact absurd h (by simp)
    · simp only at h
      by_cases hover : token_counter (resolveMsgs
          (compress_assistant_messages
            (compress_user_messages
              (compress_tool_result_messages stA refsA (some (modelBudget model)) t)
              refsA (some (modelBudget model)) t)
            refsA (some (modelBudget model)) t) refsA) > modelBudget model
      · rw [if_pos hover] at h
        rcases hrec : compress_messages _ refs model (t / 2) n with _ | ⟨st5, refs5⟩ <;>
          rw [hrec] at h
        · exact absurd h (by simp)
        · simp only [Option.some.injEq, Prod.mk.injEq] at h
          obtain ⟨hst, hrefs⟩ := h
          rcases ih _ refs model (t / 2) hrec with hc | hc | hc
          · refine Or.inl ?_
            rw [← hst, ← hrefs]
            exact le_trans (token_counter_sublist st5 (middle_out_sublist refs5 320)) hc
          · refine Or.inr (Or.inl ?_)
            rw [← hrefs]
            exact le_trans (middle_out_length_le refs5 320) hc
          · exact Or.inr (Or.inr hc)
      · rw [if_neg hover] at h
        simp only [Option.some.injEq, Prod.mk.injEq] at h
        obtain ⟨hst, hrefs⟩ := h
        refine Or.inl ?_
        rw [← hst, ← hrefs]
        exact le_trans (token_counter_sublist _ (middle_out_sublist refsA 320)) (by omega)

/-!
## Claim C1
-/

/-- C1 (corrected): after `compress_messages`, either the estimated token
count is at most the model budget, or at most 11 messages remain (the
10-message conversation floor of the omission fallback, plus possibly the
system message), or the input had more than 2500 messages (in which case the
500-batch safety limit of the omission loop can be exhausted).  The original
claim's second disjunct — message count *equals* the floor — fails: omission
stops at or below the floor without reaching it. -/
theorem C1_theorem (st : Store) (refs : List Ref) (model : String)
    {st2 : Store} {refs2 : List Ref}
    (h : compress_messages st refs model = some (st2, refs2)) :
    token_counter (resolveMsgs st2 refs2) ≤ modelBudget model ∨
      refs2.length ≤ 11 ∨ 2500 < refs.length :=
  compress_spec 5 st refs model 4096 h

/-- C1 witness: the theorem applied to the empty message list. -/
theorem C1_witness :
    compress_messages [] [] "m" = some ([], []) ∧
      (token_counter (resolveMsgs [] []) ≤ modelBudget "m" ∨
        ([] : List Ref).length ≤ 11 ∨ 2500 < ([] : List Ref).length) :=
  ⟨rfl, C1_theorem [] [] "m" rfl⟩

set_option maxRecDepth 100000 in
set_option maxHeartbeats 2000000 in
/-- C1 counterexample: nine plain messages of 900 characters each that no
stage can shrink.  `compress_messages` returns them unchanged: the estimated
token count (32400) exceeds the default budget (31000) and the message count
is 9, not the configured floor 10 — both disjuncts of the claim fail. -/
theorem C1_counterexample :
    compress_messages c1Store c1Refs "test-model" = some (c1Store, c1Refs) ∧
      modelBudget "test-model" < token_counter (resolveMsgs c1Store c1Refs) ∧
      c1Refs.length ≠ 10 := by
  refine ⟨by rfl, by decide, by decide⟩

/-!
## Claim C2
-/

theorem cm_over {st : Store} {refs : List Ref} {model : String} {t n : Nat}
    {st1 : Store} {refs1 : List Ref} {st4 : Store}
    (h1 : remove_meta_messages st refs = some (st1, refs1))
    (h2 : compress_assistant_messages
        (compress_user_messages
          (compress_tool_result_messages st1 refs1 (some (modelBudget model)) t)
          refs1 (some (modelBudget model)) t)
        refs1 (some (modelBudget model)) t = st4)
    (h3 : modelBudget model < token_counter (resolveMsgs st4 refs1)) :
    compress_messages st refs model t (n + 1) =
      Option.map (fun p => (p.1, middle_out_messages p.2))
        (compress_messages st4 refs model (t / 2) n) := by
  rw [compress_messages, h1]
  simp only [h2]
  rw [if_pos h3]
  cases compress_messages st4 refs model (t / 2) n <;> rfl

theorem cm_under {st : Store} {refs : List Ref} {model : String} {t n : Nat}
    {st1 : Store} {refs1 : List Ref} {st4 : Store}
    (h1 : remove_meta_messages st refs = some (st1, refs1))
    (h2 : compress_assistant_messages
        (compress_user_messages
          (compress_tool_result_messages st1 refs1 (some (modelBudget model)) t)
          refs1 (some (modelBudget model)) t)
        refs1 (some (modelBudget model)) t = st4)
    (h3 : token_counter (resolveMsgs st4 refs1) ≤ modelBudget model) :
    compress_messages st refs model t (n + 1) = some (st4, middle_out_messages refs1) := by
  rw [compress_messages, h1]
  simp only [h2]
  rw [if_neg (by omega)]

theorem cm_zero {st : Store} {refs : List Ref} {model : String} {t : Nat}
    {st1 : Store} {refs1 : List Ref} {st4 : Store}
    (h1 : remove_meta_messages st refs = some (st1, refs1))
    (h2 : compress_assistant_messages
        (compress_user_messages
          (compress_tool_result_messages st1 refs1 (some (modelBudget model)) t)
          refs1 (some (modelBudget model)) t)
        refs1 (some (modelBudget model)) t = st4) :
    compress_messages st refs model t 0 =
      compress_messages_by_omitting_messages st4 refs (some (modelBudget model)) := by
  rw [compress_messages, h1]
  simp only [h2]

/-- A message whose content `remove_meta_messages` shares is mapped to itself. -/
theorem removeMetaMsg_of_shares {m : Msg} (h : removeMetaShares m = true) :
    removeMetaMsg m = some (m, false) := by
  rw [removeMetaShares] at h
  rcases hc : m.content with _ | c
  · rw [hc] at h
    simp [removeMetaMsg, hc]
  · rw [hc] at h
    cases c with
    | str s =>
      have h2 : (match jsonLoads s with
          | some (.obj _) => false
          | _ => true) = true := h
      rcases hp : jsonLoads s with _ | v
      · simp [removeMetaMsg, hc, hp]
      · rw [hp] at h2
        cases v <;> simp_all [removeMetaMsg, hc, hp]
    | obj fs => simp at h
    | num n => simp [removeMetaMsg, hc]
    | bool b => simp [removeMetaMsg, hc]
    | null => simp [removeMetaMsg, hc]
    | arr xs => simp [removeMetaMsg, hc]

/-- `remove_meta_messages` is the identity on lists of shared messages. -/
theorem remove_meta_id {st : Store} : ∀ {refs : List Ref},
    (∀ m ∈ resolveMsgs st refs, removeMetaShares m = true) →
    remove_meta_messages st refs = some (st, refs) := by
  intro refs
  induction refs with
  | nil => intro _; rfl
  | cons r rest ih =>
    intro h
    rw [remove_meta_messages]
    rw [removeMetaMsg_of_shares (h (getMsg st r) (by simp [resolveMsgs]))]
    simp only [Bool.false_eq_true, if_false]
    rw [ih (fun m hm => h m (by simp [resolveMsgs] at hm ⊢; exact Or.inr hm))]

theorem rolePass_under {pred : Msg → Bool} {st : Store} {refs : List Ref}
    {max_tokens : Option Nat} {token_threshold : Nat}
    (h : token_counter (resolveMsgs st refs) ≤ maxTokensOr max_tokens) :
    rolePass pred st refs max_tokens token_threshold = st := by
  rw [rolePass, if_neg (by omega)]

theorem maxTokensOr_budget (model : String) :
    maxTokensOr (some (modelBudget model)) = modelBudget model := by
  have := modelBudget_pos model
  show (if modelBudget model = 0 then 100 * 1000 else modelBudget model) = modelBudget model
  rw [if_neg (by omega)]

/-- C2 (corrected): `compress_messages` is the identity — hence idempotent —
on message lists that are within the model budget, at most 320 long, and
whose contents the metadata-stripping stage shares rather than copies (not
dicts, and not strings parsing to JSON objects; in particular all plain or
already-truncated texts).  Unrestricted idempotence fails: the
structural-omission fallback restarts from the uncompressed originals, so a
second application can compress survivors the first application returned
uncompressed (see the counterexample). -/
theorem C2_theorem (st : Store) (refs : List Ref) (model : String)
    (hshare : ∀ m ∈ resolveMsgs st refs, removeMetaShares m = true)
    (hbudget : token_counter (resolveMsgs st refs) ≤ modelBudget model)
    (hlen : refs.length ≤ 320) :
    compress_messages st refs model = some (st, refs) := by
  rw [compress_messages, remove_meta_id hshare]
  simp only
  rw [compress_tool_result_messages, rolePass_under (by rw [maxTokensOr_budget]; omega)]
  rw [compress_user_messages, rolePass_under (by rw [maxTokensOr_budget]; omega)]
  rw [compress_assistant_messages, rolePass_under (by rw [maxTokensOr_budget]; omega)]
  rw [if_neg (by omega), middle_out_of_le hlen]

/-- C2 witness: the theorem applied to a one-message list. -/
theorem C2_witness :
    (∀ m ∈ resolveMsgs [{ role := some "user", content := some (.str "hello") }] [0],
        removeMetaShares m = true) ∧
      token_counter (resolveMsgs [{ role := some "user", content := some (.str "hello") }] [0]) ≤
        modelBudget "m" ∧
      ([0] : List Ref).length ≤ 320 ∧
      compress_messages [{ role := some "user", content := some (.str "hello") }] [0] "m" =
        some ([{ role := some "user", content := some (.str "hello") }], [0]) :=
  ⟨by decide, by decide, by decide,
    C2_theorem _ _ "m" (by decide) (by decide) (by decide)⟩

namespace C2Data

set_option maxRecDepth 100000
set_option maxHeartbeats 4000000

theorem remL1 : remove_meta_messages S1 c2Refs = some (S2, r1of 15) := by rfl

theorem pasL1 :
    compress_assistant_messages
      (compress_user_messages
        (compress_tool_result_messages S2 (r1of 15) (some (modelBudget "test-model")) 4096)
        (r1of 15) (some (modelBudget "test-model")) 4096)
      (r1of 15) (some (modelBudget "test-model")) 4096 = S2 := by rfl

theorem tokL1 : modelBudget "test-model" < token_counter (resolveMsgs S2 (r1of 15)) := by decide

theorem lvlL1 : compress_messages S1 c2Refs "test-model" 4096 5 =
    Option.map (fun p => (p.1, middle_out_messages p.2))
      (compress_messages S2 c2Refs "test-model" 2048 4) :=
  cm_over remL1 pasL1 tokL1

theorem remL2 : remove_meta_messages S2 c2Refs = some (S3, r1of 23) := by rfl

theorem pasL2 :
    compress_assistant_messages
      (compress_user_messages
        (compress_tool_result_messages S3 (r1of 23) (some (modelBudget "test-model")) 2048)
        (r1of 23) (some (modelBudget "test-model")) 2048)
      (r1of 23) (some (modelBudget "test-model")) 2048 = S3 := by rfl

theorem tokL2 : modelBudget "test-model" < token_counter (resolveMsgs S3 (r1of 23)) := by decide

theorem lvlL2 : compress_messages S2 c2Refs "test-model" 2048 4 =
    Option.map (fun p => (p.1, middle_out_messages p.2))
      (compress_messages S3 c2Refs "test-model" 1024 3) :=
  cm_over remL2 pasL2 tokL2

theorem remL3 : remove_meta_messages S3 c2Refs = some (S4, r1of 31) := by rfl

theorem pasL3 :
    compress_assistant_messages
      (compress_user_messages
        (compress_tool_result_messages S4 (r1of 31) (some (modelBudget "test-model")) 1024)
        (r1of 31) (some (modelBudget "test-model")) 1024)
      (r1of 31) (some (modelBudget "test-model")) 1024 = S4 := by rfl

theorem tokL3 : modelBudget "test-model" < token_counter (resolveMsgs S4 (r1of 31)) := by decide

theorem lvlL3 : compress_messages S3 c2Refs "test-model" 1024 3 =
    Option.map (fun p => (p.1, middle_out_messages p.2))
      (compress_messages S4 c2Refs "test-model" 512 2) :=
  cm_over remL3 pasL3 tokL3

theorem remL4 : remove_meta_messages S4 c2Refs = some (S5, r1of 39) := by rfl

theorem pasL4 :
    compress_assistant_messages
      (compress_user_messages
        (compress_tool_result_messages S5 (r1of 39) (some (modelBudget "test-model")) 512)
        (r1of 39) (some (modelBudget "test-model")) 512)
      (r1of 39) (some (modelBudget "test-model")) 512 = S5 := by rfl

theorem tokL4 : modelBudget "test-model" < token_counter (resolveMsgs S5 (r1of 39)) := by decide

theorem lvlL4 : compress_messages S4 c2Refs "test-model" 512 2 =
    Option.map (fun p => (p.1, middle_out_messages p.2))
      (compress_messages S5 c2Refs "test-model" 256 1) :=
  cm_over remL4 pasL4 tokL4

theorem remL5 : remove_meta_messages S5 c2Refs = some (S5 ++ R8, r1of 47) := by rfl

theorem pasL5 :
    compress_assistant_messages
      (compress_user_messages
        (compress_tool_result_messages (S5 ++ R8) (r1of 47) (some (modelBudget "test-model")) 256)
        (r1of 47) (some (modelBudget "test-model")) 256)
      (r1of 47) (some (modelBudget "test-model")) 256 = S6 := by rfl

theorem tokL5 : modelBudget "test-model" < token_counter (resolveMsgs S6 (r1of 47)) := by decide

theorem lvlL5 : compress_messages S5 c2Refs "test-model" 256 1 =
    Option.map (fun p => (p.1, middle_out_messages p.2))
      (compress_messages S6 c2Refs "test-model" 128 0) :=
  cm_over remL5 pasL5 tokL5

theorem remL6 : remove_meta_messages S6 c2Refs = some (S6 ++ R8, r1of 55) := by rfl

theorem pasL6 :
    compress_assistant_messages
      (compress_user_messages
        (compress_tool_result_messages (S6 ++ R8) (r1of 55) (some (modelBudget "test-model")) 128)
        (r1of 55) (some (modelBudget "test-model")) 128)
      (r1of 55) (some (modelBudget "test-model")) 128 = S7 := by rfl

theorem lvlL6 : compress_messages S6 c2Refs "test-model" 128 0 =
    compress_messages_by_omitting_messages S7 c2Refs (some (modelBudget "test-model")) :=
  cm_zero remL6 pasL6

theorem omitL : compress_messages_by_omitting_messages S7 c2Refs (some (modelBudget "test-model")) =
    some (SA, RA) := by rfl

theorem call1 : compress_messages S1 c2Refs "test-model" 4096 5 = some (SA, RA) := by
  rw [lvlL1, lvlL2, lvlL3, lvlL4, lvlL5, lvlL6, omitL]
  rfl

theorem remM1 : remove_meta_messages SA RA = some (SB1, r2of 71) := by rfl

theorem pasM1 :
    compress_assistant_messages
      (compress_user_messages
        (compress_tool_result_messages SB1 (r2of 71) (some (modelBudget "test-model")) 4096)
        (r2of 71) (some (modelBudget "test-model")) 4096)
      (r2of 71) (some (modelBudget "test-model")) 4096 = SB1 := by rfl

theorem tokM1 : modelBudget "test-model" < token_counter (resolveMsgs SB1 (r2of 71)) := by decide

theorem lvlM1 : compress_messages SA RA "test-model" 4096 5 =
    Option.map (fun p => (p.1, middle_out_messages p.2))
      (compress_messages SB1 RA "test-model" 2048 4) :=
  cm_over remM1 pasM1 tokM1

theorem remM2 : remove_meta_messages SB1 RA = some (SB2, r2of 79) := by rfl

theorem pasM2 :
    compress_assistant_messages
      (compress_user_messages
        (compress_tool_result_messages SB2 (r2of 79) (some (modelBudget "test-model")) 2048)
        (r2of 79) (some (modelBudget "test-model")) 2048)
      (r2of 79) (some (modelBudget "test-model")) 2048 = SB2 := by rfl

theorem tokM2 : modelBudget "test-model" < token_counter (resolveMsgs SB2 (r2of 79)) := by decide

theorem lvlM2 : compress_messages SB1 RA "test-model" 2048 4 =
    Option.map (fun p => (p.1, middle_out_messages p.2))
      (compress_messages SB2 RA "test-model" 1024 3) :=
  cm_over remM2 pasM2 tokM2

theorem remM3 : remove_meta_messages SB2 RA = some (SB3, r2of 87) := by rfl

theorem pasM3 :
    compress_assistant_messages
      (compress_user_messages
        (compress_tool_result_messages SB3 (r2of 87) (some (modelBudget "test-model")) 1024)
        (r2of 87) (some (modelBudget "test-model")) 1024)
      (r2of 87) (some (modelBudget "test-model")) 1024 = SB3 := by rfl

theorem tokM3 : modelBudget "test-model" < token_counter (resolveMsgs SB3 (r2of 87)) := by decide

theorem lvlM3 : compress_messages SB2 RA "test-model" 1024 3 =
    Option.map (fun p => (p.1, middle_out_messages p.2))
      (compress_messages SB3 RA "test-model" 512 2) :=
  cm_over remM3 pasM3 tokM3

theorem remM4 : remove_meta_messages SB3 RA = some (SB4, r2of 95) := by rfl

theorem pasM4 :
    compress_assistant_messages
      (compress_user_messages
        (compress_tool_result_messages SB4 (r2of 95) (some (modelBudget "test-model")) 512)
        (r2of 95) (some (modelBudget "test-model")) 512)
      (r2of 95) (some (modelBudget "test-model")) 512 = SB4 := by rfl

theorem tokM4 : modelBudget "test-model" < token_counter (resolveMsgs SB4 (r2of 95)) := by decide

theorem lvlM4 : compress_messages SB3 RA "test-model" 512 2 =
    Option.map (fun p => (p.1, middle_out_messages p.2))
      (compress_messages SB4 RA "test-model" 256 1) :=
  cm_over remM4 pasM4 tokM4

theorem remM5 : remove_meta_messages SB4 RA = some (SB4 ++ R8, r2of 103) := by rfl

theorem pasM5 :
    compress_assistant_messages
      (compress_user_messages
        (compress_tool_result_messages (SB4 ++ R8) (r2of 103) (some (modelBudget "test-model")) 256)
        (r2of 103) (some (modelBudget "test-model")) 256)
      (r2of 103) (some (modelBudget "test-model")) 256 = SBF := by rfl

theorem tokM5 : token_counter (resolveMsgs SBF (r2of 103)) ≤ modelBudget "test-model" := by decide

theorem lvlM5 : compress_messages SB4 RA "test-model" 256 1 =
    some (SBF, middle_out_messages (r2of 103)) :=
  cm_under remM5 pasM5 tokM5

theorem call2 : compress_messages SA RA "test-model" 4096 5 = some (SBF, RM) := by
  rw [lvlM1, lvlM2, lvlM3, lvlM4, lvlM5]
  rfl

theorem profNe : resolveMsgs SBF RM ≠ resolveMsgs SA RA := by
  intro h
  exact absurd (congrArg (List.map (fun m => contentChars m.content)) h) (by decide)

end C2Data

set_option maxRecDepth 100000 in
set_option maxHeartbeats 4000000 in
/-- C2 counterexample: on fifteen messages — seven small fillers and eight
large JSON-object messages — the first `compress_messages` application ends
in the structural-omission fallback, which restarts from freshly stripped
(uncompressed) copies and returns the surviving eight large messages at full
size, still over budget.  The second application head-truncates seven of
them and gets under budget, so `compress(compress m) ≠ compress m`. -/
theorem C2_counterexample :
    ∃ st1 refs1 st2 refs2,
      compress_messages C2Data.S1 C2Data.c2Refs "test-model" = some (st1, refs1) ∧
      compress_messages st1 refs1 "test-model" = some (st2, refs2) ∧
      resolveMsgs st2 refs2 ≠ resolveMsgs st1 refs1 :=
  ⟨C2Data.SA, C2Data.RA, C2Data.SBF, C2Data.RM,
    C2Data.call1, C2Data.call2, C2Data.profNe⟩

/-!
## Claims C3 and C4
-/

theorem remove_meta_extends {st : Store} : ∀ {refs : List Ref} {st1 : Store} {refs1 : List Ref},
    remove_meta_messages st refs = some (st1, refs1) → ∃ ext, st1 = st ++ ext := by
  have main : ∀ (refs : List Ref) (st0 : Store) {st1 : Store} {refs1 : List Ref},
      remove_meta_messages st0 refs = some (st1, refs1) → ∃ ext, st1 = st0 ++ ext := by
    intro refs
    induction refs with
    | nil =>
      intro st0 st1 refs1 h
      rw [remove_meta_messages] at h
      simp only [Option.some.injEq, Prod.mk.injEq] at h
      exact ⟨[], by simp [← h.1]⟩
    | cons r rest ih =>
      intro st0 st1 refs1 h
      rw [remove_meta_messages] at h
      rcases hm : removeMetaMsg (getMsg st0 r) with _ | ⟨m, fresh⟩ <;> rw [hm] at h
      · exact absurd h (by simp)
      · rcases fresh with _ | _ <;> simp only [Bool.false_eq_true, if_true, if_false] at h
        · rcases hrec : remove_meta_messages st0 rest with _ | ⟨st2, rs⟩ <;> rw [hrec] at h
          · exact absurd h (by simp)
          · simp only [Option.some.injEq, Prod.mk.injEq] at h
            obtain ⟨ext, hext⟩ := ih st0 hrec
            exact ⟨ext, by rw [← h.1, hext]⟩
        · rcases hrec : remove_meta_messages (st0 ++ [m]) rest with _ | ⟨st2, rs⟩ <;>
            rw [hrec] at h
          · exact absurd h (by simp)
          · simp only [Option.some.injEq, Prod.mk.injEq] at h
            obtain ⟨ext, hext⟩ := ih (st0 ++ [m]) hrec
            exact ⟨[m] ++ ext, by rw [← h.1, hext, List.append_assoc]⟩
  intro refs st1 refs1 h
  exact main refs st h

/-- C3 (corrected): the metadata-stripping stage is side-effect-free on the
input — `remove_meta_messages` only appends fresh copies to the store and
never overwrites an existing message dict.  The original claim fails for
`compress_messages` as a whole: the role-scoped compression passes write
compressed content back into shared message dicts in place (see the
counterexample). -/
theorem C3_theorem (st : Store) (refs : List Ref) {st1 : Store} {refs1 : List Ref}
    (h : remove_meta_messages st refs = some (st1, refs1)) :
    ∃ ext, st1 = st ++ ext :=
  remove_meta_extends h

/-- C3 witness: the theorem applied to a one-message list. -/
theorem C3_witness :
    remove_meta_messages [{ role := some "user", content := some (.str "x") }] [0] =
        some ([{ role := some "user", content := some (.str "x") }], [0]) ∧
      ∃ ext, [({ role := some "user", content := some (.str "x") } : Msg)] =
        [{ role := some "user", content := some (.str "x") }] ++ ext :=
  ⟨by rfl, C3_theorem _ [0] (by rfl)⟩

set_option maxRecDepth 100000 in
set_option maxHeartbeats 4000000 in
/-- C3 counterexample: eleven shared tool-result messages with plain string
contents.  `compress_messages` head-truncates the ten older ones in place:
after the call, the dict at position 0 of the input store no longer holds its
original content — the input was mutated, not copied. -/
theorem C3_counterexample :
    compress_messages c3Store c3Refs "test-model" =
        some (List.replicate 10 c3MsgAfter ++ [c3Msg], c3Refs) ∧
      getMsg (List.replicate 10 c3MsgAfter ++ [c3Msg]) 0 ≠ getMsg c3Store 0 := by
  refine ⟨by rfl, fun h => absurd (congrArg (fun m => contentChars m.content) h) (by decide)⟩

theorem removeMetaMsg_false_eq {m m' : Msg} (h : removeMetaMsg m = some (m', false)) :
    m' = m := by
  rw [removeMetaMsg] at h
  repeat' split at h
  all_goals simp_all

theorem getMsg_append_lt {st : Store} {ext : Store} {r : Ref} (h : r < st.length) :
    getMsg (st ++ ext) r = getMsg st r := by
  rw [getMsg, getMsg, List.getD_append _ _ _ _ h]

theorem remove_meta_resolve : ∀ (refs : List Ref) (st : Store) {st1 : Store} {refs1 : List Ref},
    (∀ r ∈ refs, r < st.length) →
    remove_meta_messages st refs = some (st1, refs1) →
    resolveMsgs st1 refs1 = (resolveMsgs st refs).map stripMsgValue := by
  intro refs
  induction refs with
  | nil =>
    intro st st1 refs1 _ h
    rw [remove_meta_messages] at h
    simp only [Option.some.injEq, Prod.mk.injEq] at h
    simp [resolveMsgs, ← h.2]
  | cons r rest ih =>
    intro st st1 refs1 hwf h
    rw [remove_meta_messages] at h
    rcases hm : removeMetaMsg (getMsg st r) with _ | ⟨m, fresh⟩ <;> rw [hm] at h
    · exact absurd h (by simp)
    · rcases fresh with _ | _ <;> simp only [Bool.false_eq_true, if_true, if_false] at h
      · rcases hrec : remove_meta_messages st rest with _ | ⟨st2, rs⟩ <;> rw [hrec] at h
        · exact absurd h (by simp)
        · simp only [Option.some.injEq, Prod.mk.injEq] at h
          obtain ⟨hst, hrefs⟩ := h
          subst hst
          rw [← hrefs]
          simp only [resolveMsgs, List.map_cons]
          rw [List.cons_eq_cons]
          constructor
          · obtain ⟨ext, hext⟩ := remove_meta_extends hrec
            rw [hext, getMsg_append_lt (hwf r (by simp))]
            rw [stripMsgValue, hm, removeMetaMsg_false_eq hm]
          · have := ih st (fun x hx => hwf x (by simp [hx])) hrec
            simpa [resolveMsgs] using this
      · rcases hrec : remove_meta_messages (st ++ [m]) rest with _ | ⟨st2, rs⟩ <;>
          rw [hrec] at h
        · exact absurd h (by simp)
        · simp only [Option.some.injEq, Prod.mk.injEq] at h
          obtain ⟨hst, hrefs⟩ := h
          subst hst
          rw [← hrefs]
          simp only [resolveMsgs, List.map_cons]
          rw [List.cons_eq_cons]
          constructor
          · obtain ⟨ext, hext⟩ := remove_meta_extends hrec
            rw [hext, getMsg_append_lt (by simp)]
            rw [stripMsgValue, hm]
            rw [getMsg, List.getD_append_right _ _ _ _ (Nat.le_refl _)]
            simp
          · have := ih (st ++ [m])
              (fun x hx => lt_of_lt_of_le (hwf x (by simp [hx])) (by simp)) hrec
            simp only [resolveMsgs] at this
            rw [this]
            congr 1
            apply List.map_congr_left
            intro x hx
            exact getMsg_append_lt (hwf x (by simp [hx]))

/-- C4 (corrected): on message lists whose estimate after metadata stripping
is within the model budget, `compress_messages` performs exactly the
metadata-stripping rewrite — every message is mapped in order to its
stripped value (volatile `tool_execution.arguments` removed, structured
contents serialized) and the count is preserved — provided the list has at
most 320 messages.  The original claim's "drops no message" fails beyond
320: the hard count cap applies regardless of budget (see the
counterexample). -/
theorem C4_theorem (st : Store) (refs : List Ref) (model : String) (t : Nat)
    {st1 : Store} {refs1 : List Ref}
    (hwf : ∀ r ∈ refs, r < st.length)
    (h : remove_meta_messages st refs = some (st1, refs1))
    (hbudget : token_counter (resolveMsgs st1 refs1) ≤ modelBudget model)
    (hlen : refs1.length ≤ 320) :
    compress_messages st refs model t 5 = some (st1, refs1) ∧
      resolveMsgs st1 refs1 = (resolveMsgs st refs).map stripMsgValue ∧
      refs1.length = refs.length := by
  refine ⟨?_, remove_meta_resolve refs st hwf h, remove_meta_length h⟩
  rw [compress_messages, h]
  simp only
  rw [compress_tool_result_messages, rolePass_under (by rw [maxTokensOr_budget]; omega)]
  rw [compress_user_messages, rolePass_under (by rw [maxTokensOr_budget]; omega)]
  rw [compress_assistant_messages, rolePass_under (by rw [maxTokensOr_budget]; omega)]
  rw [if_neg (by omega), middle_out_of_le hlen]

/-- C4 witness: the theorem applied to a one-message list. -/
theorem C4_witness :
    (∀ r ∈ ([0] : List Ref), r < ([{ role := some "user", content := some (.str "ok") }] : Store).length) ∧
      remove_meta_messages [{ role := some "user", content := some (.str "ok") }] [0] =
        some ([{ role := some "user", content := some (.str "ok") }], [0]) ∧
      compress_messages [{ role := some "user", content := some (.str "ok") }] [0] "m" 4096 5 =
        some ([{ role := some "user", content := some (.str "ok") }], [0]) :=
  ⟨by decide, by rfl,
    (C4_theorem _ [0] "m" 4096 (by decide) (by rfl) (by decide) (by decide)).1⟩

set_option maxRecDepth 10000 in
/-- C4 counterexample: 321 two-character messages, far under every budget.
`compress_messages` still drops one of them: the hard count cap
`middle_out_messages` keeps only 320 messages regardless of the token
budget, so "drops no message" fails for under-budget inputs. -/
theorem C4_counterexample :
    compress_messages c4Store c4Refs "test-model" =
        some (c4Store, c4Refs.take 160 ++ c4Refs.drop 161) ∧
      token_counter (resolveMsgs c4Store c4Refs) ≤ modelBudget "test-model" ∧
      (c4Refs.take 160 ++ c4Refs.drop 161).length ≠ c4Refs.length := by
  refine ⟨by rfl, by decide, by decide⟩

/-!
## Claim C5
-/

theorem getMsg_set_ne {st : Store} {r2 r : Ref} (v : Msg) (h : r2 ≠ r) :
    getMsg (st.set r2 v) r = getMsg st r := by
  rw [getMsg, getMsg, List.getD_eq_getElem?_getD, List.getD_eq_getElem?_getD,
    List.getElem?_set_ne h]

theorem getMsg_set_eq {st : Store} {r : Ref} (v : Msg) (h : r < st.length) :
    getMsg (st.set r v) r = v := by
  rw [getMsg, List.getD_eq_getElem?_getD, List.getElem?_set_eq_of_lt _ h]
  rfl

theorem rolePassLoop_getMsg_not_mem (pred : Msg → Bool) {r : Ref} :
    ∀ (revRefs : List Ref) (st : Store) (i maxV thr : Nat), r ∉ revRefs →
    getMsg (rolePassLoop pred st revRefs i maxV thr) r = getMsg st r := by
  intro revRefs
  induction revRefs with
  | nil => intro st i maxV thr _; rw [rolePassLoop]
  | cons x rest ih =>
    intro st i maxV thr h
    have hxr : x ≠ r := fun he => h (he ▸ List.mem_cons_self x rest)
    have hrest : r ∉ rest := fun hr => h (List.mem_cons_of_mem _ hr)
    rw [rolePassLoop]
    by_cases hp : pred (getMsg st x)
    · rw [if_pos hp]
      simp only
      rw [ih _ _ _ _ hrest]
      split
      · split
        · split
          · exact getMsg_set_ne _ hxr
          · rfl
        · exact getMsg_set_ne _ hxr
      · rfl
    · rw [if_neg hp]
      exact ih _ _ _ _ hrest

theorem rolePassLoop_newest (pred : Msg → Bool) :
    ∀ (pre : List Ref) (st : Store) (r : Ref) (post : List Ref) (maxV thr : Nat),
    (∀ x ∈ pre, pred (getMsg st x) = false) →
    pred (getMsg st r) = true →
    r ∉ post →
    r < st.length →
    getMsg (rolePassLoop pred st (pre ++ r :: post) 0 maxV thr) r =
      (if token_counter [getMsg st r] > thr then
        { getMsg st r with content := safe_truncate (getMsg st r).content (maxV * 2) }
      else getMsg st r) := by
  intro pre
  induction pre with
  | nil =>
    intro st r post maxV thr _ hr hpost hlt
    rw [List.nil_append, rolePassLoop, if_pos hr]
    simp only [Nat.lt_irrefl, if_false, gt_iff_lt]
    rw [rolePassLoop_getMsg_not_mem pred _ _ _ _ _ hpost]
    split
    · exact getMsg_set_eq _ hlt
    · rfl
  | cons x pre' ih =>
    intro st r post maxV thr hpre hr hpost hlt
    rw [List.cons_append, rolePassLoop,
      if_neg (by rw [hpre x (List.mem_cons_self x pre')]; simp)]
    exact ih st r post maxV thr (fun y hy => hpre y (List.mem_cons_of_mem _ hy)) hr hpost hlt

theorem safe_truncate_str_short {s : String} {L : Nat} (h : strLen s ≤ min L 100000) :
    safe_truncate (some (.str s)) L = some (.str s) := by
  simp only [safe_truncate, gt_iff_lt]
  rw [if_neg (by omega)]

/-- C5 (corrected): in each role-scoped pass, the single most recent matching
message is exempt from head-truncated `compress_message` compression — its
dict is either untouched or rewritten only by `safe_truncate` with ceiling
`2 × max_tokens`; and a string content at or below `min(2 × max_tokens,
100000)` characters is never changed at all.  The original claim's ceiling
of "twice the remaining budget" ignores the hard 100000-character cap inside
`safe_truncate`, below twice the budget for the larger model families (see
the counterexample).  The three role passes are instances of `rolePass`. -/
theorem C5_theorem :
    (∀ (pred : Msg → Bool) (st : Store) (refs : List Ref) (maxT : Option Nat) (thr : Nat)
        (pre : List Ref) (r : Ref) (post : List Ref),
      refs.reverse = pre ++ r :: post →
      (∀ x ∈ pre, pred (getMsg st x) = false) →
      pred (getMsg st r) = true →
      r ∉ post →
      r < st.length →
      (getMsg (rolePass pred st refs maxT thr) r = getMsg st r ∨
        getMsg (rolePass pred st refs maxT thr) r =
          { getMsg st r with
            content := safe_truncate (getMsg st r).content (maxTokensOr maxT * 2) }) ∧
      (∀ s : String, (getMsg st r).content = some (.str s) →
        strLen s ≤ min (maxTokensOr maxT * 2) 100000 →
        getMsg (rolePass pred st refs maxT thr) r = getMsg st r)) ∧
    compress_tool_result_messages = rolePass is_tool_result_message ∧
    compress_user_messages = rolePass (fun m => m.role == some "user") ∧
    compress_assistant_messages = rolePass (fun m => m.role == some "assistant") := by
  refine ⟨?_, rfl, rfl, rfl⟩
  intro pred st refs maxT thr pre r post hsplit hpre hr hpost hlt
  rw [rolePass]
  by_cases htotal : token_counter (resolveMsgs st refs) > maxTokensOr maxT
  · rw [if_pos htotal, hsplit]
    have hloop := rolePassLoop_newest pred pre st r post (maxTokensOr maxT) thr hpre hr hpost hlt
    constructor
    · rw [hloop]
      split
      · exact Or.inr rfl
      · exact Or.inl rfl
    · intro s hs hshort
      rw [hloop]
      split
      · rw [hs, safe_truncate_str_short hshort, ← hs]
      · rfl
  · rw [if_neg htotal]
    exact ⟨Or.inl rfl, fun _ _ _ => rfl⟩

/-- C5 witness: the theorem applied to a two-message store where the newest
user message is message 1. -/
theorem C5_witness :
    (([0, 1] : List Ref).reverse = [] ++ 1 :: [0]) ∧
      ((fun m => m.role == some "user")
        (getMsg [{ role := some "x" }, { role := some "user", content := some (.str "hi") }] 1)
          = true) ∧
      (getMsg (rolePass (fun m => m.role == some "user")
          [{ role := some "x" }, { role := some "user", content := some (.str "hi") }]
          [0, 1] (some 50) 1) 1 =
        getMsg [{ role := some "x" }, { role := some "user", content := some (.str "hi") }] 1 ∨
      getMsg (rolePass (fun m => m.role == some "user")
          [{ role := some "x" }, { role := some "user", content := some (.str "hi") }]
          [0, 1] (some 50) 1) 1 =
        { getMsg [{ role := some "x" }, { role := some "user", content := some (.str "hi") }] 1 with
          content := safe_truncate
            (getMsg [{ role := some "x" },
              { role := some "user", content := some (.str "hi") }] 1).content
            (maxTokensOr (some 50) * 2) }) :=
  ⟨by decide, by decide,
    ((C5_theorem.1 (fun m => m.role == some "user")
      [{ role := some "x" }, { role := some "user", content := some (.str "hi") }]
      [0, 1] (some 50) 1 [] 1 [0] (by decide) (by decide) (by decide) (by decide)
      (by decide))).1⟩

theorem strLen_append (a b : String) : strLen (a ++ b) = strLen a + strLen b := by
  cases a
  cases b
  simp [strLen, String.instAppend, String.append]

theorem strLen_strTake (s : String) (n : Nat) : strLen (strTake s n) = min n (strLen s) := by
  show (s.data.take n).length = min n s.data.length
  exact List.length_take n s.data

theorem strLen_strTakeLast (s : String) (n : Nat) :
    strLen (strTakeLast s n) = strLen s - (strLen s - n) := by
  show (s.data.drop (s.data.length - n)).length = s.data.length - (s.data.length - n)
  exact List.length_drop (s.data.length - n) s.data

theorem c5Content_length : strLen c5Content = 105000 := by
  show ("ToolResult".data ++ List.replicate 104990 'x').length = 105000
  rw [List.length_append, List.length_replicate]
  rfl

theorem token_counter_singleton (m : Msg) : token_counter [m] = msgTokens m + 0 := rfl

theorem msgTokens_str (s : String) (m : Msg) (h : m.content = some (JVal.str s)) :
    msgTokens m = 4 * strLen s := by
  rw [msgTokens, h]
  simp only [contentChars]

theorem c5Tok : token_counter [c5Msg] = 4 * strLen c5Content := by
  rw [token_counter_singleton, msgTokens_str c5Content c5Msg rfl]
  omega

theorem c5Budget : maxTokensOr (some (modelBudget "sonnet-x")) = 108000 := by
  rw [maxTokensOr_budget]
  rw [show modelBudget "sonnet-x" = 108000 from by decide]

theorem c5SafeTrunc : safe_truncate (some (JVal.str c5Content))
    (maxTokensOr (some (modelBudget "sonnet-x")) * 2)
    = some (JVal.str (safeTruncStr c5Content 100000)) := by
  rw [c5Budget]
  simp only [safe_truncate]
  rw [show min (108000 * 2) 100000 = 100000 from by decide]
  rw [if_pos (by rw [c5Content_length]; omega)]

theorem c5TruncLen : strLen (safeTruncStr c5Content 100000)
    = 49925 + (strLen middleMarker + (49925 + strLen tooLongNotice)) := by
  have hfd : Int.fdiv (((100000 : Nat) : Int) - 150) 2 = 49925 := by decide
  have hsub : (((100000 : Nat) : Int) - 150) - Int.fdiv (((100000 : Nat) : Int) - 150) 2
      = 49925 := by rw [hfd]; decide
  show strLen (pySliceTo c5Content (Int.fdiv (((100000 : Nat) : Int) - 150) 2)
      ++ middleMarker
      ++ (if (((100000 : Nat) : Int) - 150) - Int.fdiv (((100000 : Nat) : Int) - 150) 2 > 0
          then strTakeLast c5Content
            ((((100000 : Nat) : Int) - 150)
              - Int.fdiv (((100000 : Nat) : Int) - 150) 2).toNat
          else "")
      ++ tooLongNotice)
    = 49925 + (strLen middleMarker + (49925 + strLen tooLongNotice))
  rw [hsub, hfd]
  rw [if_pos (by decide)]
  rw [show pySliceTo c5Content (49925 : Int)
      = strTake c5Content (Int.toNat (49925 : Int)) from by
    rw [pySliceTo, if_pos (by decide)]]
  rw [strLen_append, strLen_append, strLen_append, strLen_strTake, strLen_strTakeLast]
  rw [show Int.toNat (49925 : Int) = 49925 from by decide]
  rw [c5Content_length]
  rw [show min 49925 105000 = 49925 from by decide]
  omega

/-- C5 counterexample: a single (hence newest) tool-result message of 105000
characters under the Sonnet budget (108000).  Its size does not exceed twice
the remaining budget (216000), yet the pass rewrites it — `safe_truncate`
clamps its ceiling to 100000 characters, so the newest message is shortened
even below the claimed ceiling. -/
theorem C5_counterexample : strLen c5Content ≤ 2 * modelBudget "sonnet-x" ∧
    getMsg (compress_tool_result_messages c5Store [0]
        (some (modelBudget "sonnet-x")) 4096) 0 ≠ getMsg c5Store 0 := by
  have hres : resolveMsgs c5Store [0] = [c5Msg] := rfl
  constructor
  · rw [c5Content_length, show modelBudget "sonnet-x" = 108000 from by decide]
    omega
  · rw [compress_tool_result_messages, rolePass]
    rw [if_pos (by rw [hres, c5Tok, c5Content_length, c5Budget]; omega)]
    have hloop := rolePassLoop_newest is_tool_result_message []
      c5Store 0 [] (maxTokensOr (some (modelBudget "sonnet-x"))) 4096
      (by intro x hx; exact absurd hx (List.not_mem_nil x))
      (by rfl) (List.not_mem_nil 0) (by rw [c5Store]; simp)
    rw [show ([0] : List Ref).reverse = [] ++ 0 :: [] from rfl]
    rw [hloop]
    rw [if_pos (by
      show token_counter [c5Msg] > 4096
      rw [c5Tok, c5Content_length]
      omega)]
    rw [show getMsg c5Store 0 = c5Msg from rfl]
    rw [show c5Msg.content = some (JVal.str c5Content) from rfl]
    rw [c5SafeTrunc]
    intro heq
    have hc : some (JVal.str (safeTruncStr c5Content 100000))
        = some (JVal.str c5Content) := congrArg Msg.content heq
    injection hc with h1
    injection h1 with h2
    have h3 := congrArg strLen h2
    rw [c5TruncLen, c5Content_length] at h3
    have hm1 : strLen middleMarker ≤ 100 := by decide
    have hm2 : strLen tooLongNotice ≤ 100 := by decide
    omega


set_option maxRecDepth 100000 in
set_option maxHeartbeats 4000000 in
/-- C10 (confirmed): the compression primitives are not total over the content
type the data model allows — on a content that is neither a string nor a dict
(here an ordered list of typed blocks) both `compress_message` and
`safe_truncate` return `none` (Python `None`), so compressing an
over-threshold list-content message replaces its content with `None`: in the
concrete nine-message store the oldest user message ends with no content at
all. -/
theorem C10_theorem :
    (∀ (a : List JVal) (mid : Option String) (L : Nat),
      compress_message (some (.arr a)) mid L = none) ∧
    (∀ (a : List JVal) (L : Nat), safe_truncate (some (.arr a)) L = none) ∧
    ((getMsg (compress_user_messages c10Store c10Refs (some 31000) 1000) 0).content).isNone
      = true := by
  refine ⟨fun a mid L => rfl, fun a L => rfl, by decide⟩

end ContextManager

namespace ThreadManager

/-- C6 (confirmed): with continue budget 3 and every sub-iteration ending in
a `tool_calls` finish event, the wrapper performs exactly 3 silent
continuations — each suppressed finish event increments the counter and
yields nothing — then, with the budget exhausted, emits exactly one synthetic
limit-reached content chunk and stops, leaving the fourth behaviour
unconsumed. -/
theorem C6_theorem :
    auto_continue_wrapper
        (List.replicate 4 (IterResult.stream [Chunk.finish "tool_calls"] none))
        3 "model-x" true 0 []
      = ⟨[limitChunk 3], 3, "model-x",
          [IterResult.stream [Chunk.finish "tool_calls"] none], false⟩ := by
  decide

/-- C7 (confirmed): a sub-iteration that raises a provider-overload exception
makes the wrapper switch the model to the `openrouter/` fallback and re-enter
the loop for the next sub-iteration with the auto-continue counter unchanged
— the retry consumes no continue budget. -/
theorem C7_theorem (rest : List IterResult) (native_max_auto_continues count : Nat)
    (model : String) (acc : List Chunk)
    (h : native_max_auto_continues = 0 ∨ count < native_max_auto_continues) :
    auto_continue_wrapper (IterResult.stream [] (some overloadMarker) :: rest)
        native_max_auto_continues model true count acc
      = auto_continue_wrapper rest native_max_auto_continues
          ("openrouter/" ++ model) true count acc := by
  rw [auto_continue_wrapper]
  rw [if_neg (fun hn => hn ⟨rfl, h⟩)]
  simp only [processChunks, List.append_nil]
  rw [if_pos (by decide)]

/-- C7 witness: the theorem applied at budget 3, counter 0, an empty tail. -/
theorem C7_witness :
    ((3 : Nat) = 0 ∨ (0 : Nat) < 3) ∧
      auto_continue_wrapper (IterResult.stream [] (some overloadMarker) :: [])
          3 "m" true 0 []
        = auto_continue_wrapper [] 3 ("openrouter/" ++ "m") true 0 [] :=
  ⟨Or.inr (by decide), C7_theorem [] 3 0 "m" [] (Or.inr (by decide))⟩

end ThreadManager

namespace RunCoordinator

theorem findMapRpush (k v : String) :
    ∀ (ls : List (String × List String)),
    (ls.map (fun p => if p.1 == k then (k, p.2 ++ [v]) else p)).find? (fun p => p.1 == k)
      = (ls.find? (fun p => p.1 == k)).map (fun p => (k, p.2 ++ [v])) := by
  intro ls
  induction ls with
  | nil => rfl
  | cons q rest ih =>
    rw [List.map_cons]
    cases hqb : (q.1 == k) with
    | true =>
        rw [List.find?_cons_of_pos _ (by simp [hqb]), List.find?_cons_of_pos _ (by simp [hqb])]
        rw [if_pos (rfl : true = true)]
        rfl
    | false =>
        rw [List.find?_cons_of_neg _ (by simp [hqb]), List.find?_cons_of_neg _ (by simp [hqb]),
          ih]

theorem findAppendAbsent (k v : String) :
    ∀ (ls : List (String × List String)), ls.find? (fun p => p.1 == k) = none →
    (ls ++ [(k, [v])]).find? (fun p => p.1 == k) = some (k, [v]) := by
  intro ls
  induction ls with
  | nil =>
      intro _
      rw [List.nil_append]
      exact List.find?_cons_of_pos _ (beq_self_eq_true k)
  | cons q rest ih =>
      intro h
      rw [List.cons_append]
      cases hqb : (q.1 == k) with
      | true => simp [hqb] at h
      | false =>
          rw [List.find?_cons_of_neg _ (by simp [hqb])] at h
          rw [List.find?_cons_of_neg _ (by simp [hqb])]
          exact ih h

theorem lrangeAll_rpush_self (st : SysState) (k v : String) :
    lrangeAll (rpush st k v) k = lrangeAll st k ++ [v] := by
  rw [rpush]
  cases hf : st.lists.find? (fun p => p.1 == k) with
  | none =>
      simp only [lrangeAll, findAppendAbsent k v st.lists hf, hf]
      rfl
  | some p =>
      simp only [lrangeAll, findMapRpush k v st.lists, hf]
      rfl

theorem lrangeAll_publish (st : SysState) (c m k : String) :
    lrangeAll (publish st c m) k = lrangeAll st k := rfl

theorem lrangeAll_kvDelete (st : SysState) (a k : String) :
    lrangeAll (kvDelete st a) k = lrangeAll st k := rfl

theorem lrangeAll_kvSet (st : SysState) (a b k : String) :
    lrangeAll (kvSet st a b) k = lrangeAll st k := by
  rw [kvSet]
  split <;> rfl

theorem lrangeAll_pushLoop (L C : String) :
    ∀ (es : List AEvent) (st : SysState),
    lrangeAll (es.foldl (fun s e => publish (rpush s L (dumpEvent e)) C "new") st) L
      = lrangeAll st L ++ es.map dumpEvent := by
  intro es
  induction es with
  | nil => intro st; simp
  | cons e rest ih =>
      intro st
      rw [List.foldl_cons, ih, List.map_cons]
      rw [show lrangeAll (publish (rpush st L (dumpEvent e)) C "new") L
          = lrangeAll (rpush st L (dumpEvent e)) L from rfl]
      rw [lrangeAll_rpush_self, List.append_assoc]
      rfl

theorem coordLoop_stopped (L C : String) (stopAt : Nat → Bool) (k : Nat) :
    ∀ (events : List AEvent) (i : Nat) (st : SysState),
    (∀ j, stopAt j = decide (k ≤ j)) → i ≤ k → k - i < events.length →
    (∀ e ∈ events.take (k - i), ¬ (e.type = "status" ∧
      (e.status = some "completed" ∨ e.status = some "failed" ∨
        e.status = some "stopped"))) →
    coordLoop st L C stopAt events i
      = ((events.take (k - i)).foldl
          (fun s e => publish (rpush s L (dumpEvent e)) C "new") st, "stopped", none) := by
  intro events
  induction events with
  | nil =>
      intro i st _ _ h3 _
      exact absurd h3 (by simp)
  | cons e rest ih =>
      intro i st hstop hik h3 h4
      rw [coordLoop, hstop i]
      by_cases hki : k ≤ i
      · rw [if_pos (by simp [hki])]
        rw [show k - i = 0 from by omega]
        rfl
      · rw [if_neg (by simp [hki])]
        simp only
        obtain ⟨m, hm⟩ : ∃ m, k - i = m + 1 := ⟨k - i - 1, by omega⟩
        have he : e ∈ (e :: rest).take (k - i) := by
          rw [hm, List.take_succ_cons]
          exact List.mem_cons_self _ _
        rw [if_neg (h4 e he)]
        have htake : ∀ e2 ∈ rest.take (k - (i + 1)), ¬ (e2.type = "status" ∧
            (e2.status = some "completed" ∨ e2.status = some "failed" ∨
              e2.status = some "stopped")) := by
          intro e2 he2 hbad
          apply h4 e2 _ hbad
          rw [hm, List.take_succ_cons]
          exact List.mem_cons_of_mem _ (by rw [show k - (i + 1) = m from by omega] at he2; exact he2)
        rw [ih (i + 1) (publish (rpush st L (dumpEvent e)) C "new") hstop (by omega)
          (by simp at h3 ⊢; omega) htake]
        rw [hm, List.take_succ_cons, List.foldl_cons,
          show k - (i + 1) = m from by omega]

/-- C8 (confirmed): when the run lock for the agent-run id is already held
(readable by `redis.get`), the set-if-absent acquisition fails and the
coordinator returns with the system state unchanged — no transcript write, no
publish, no database status: a zero-side-effect no-op exit. -/
theorem C8_theorem (st : SysState) (agent_run_id instance_id : String)
    (events : List AEvent) (stopAt : Nat → Bool) (owner : String)
    (h : kvGet st ("agent_run_lock:" ++ agent_run_id) = some owner) :
    run_agent_background st agent_run_id instance_id events stopAt = (st, none) := by
  rw [run_agent_background]
  simp [kvSetNX, h]

/-- C8 witness: the theorem applied to a state whose lock key is held by
another owner. -/
theorem C8_witness :
    kvGet ⟨[("agent_run_lock:" ++ "r1", "owner")], [], [], none⟩ ("agent_run_lock:" ++ "r1")
        = some "owner" ∧
      run_agent_background ⟨[("agent_run_lock:" ++ "r1", "owner")], [], [], none⟩
          "r1" "inst" [] (fun _ => false)
        = (⟨[("agent_run_lock:" ++ "r1", "owner")], [], [], none⟩, none) :=
  ⟨by decide, C8_theorem ⟨[("agent_run_lock:" ++ "r1", "owner")], [], [], none⟩
    "r1" "inst" [] (fun _ => false) "owner" (by decide)⟩

/-- C9 (confirmed): once the stop signal is observed before the `k`-th event
(with events remaining and no earlier terminal status event), the coordinator
consumes and appends exactly the first `k` events — no later event reaches
the transcript — and the run's final status is `stopped`, both in the
returned status and in the durable run record. -/
theorem C9_theorem (st0 : SysState) (rid iid : String) (events : List AEvent) (k : Nat)
    (h1 : kvGet st0 ("agent_run_lock:" ++ rid) = none)
    (h2 : lrangeAll st0 ("agent_run:" ++ rid ++ ":responses") = [])
    (h3 : k < events.length)
    (h4 : ∀ e ∈ events.take k, ¬ (e.type = "status" ∧
      (e.status = some "completed" ∨ e.status = some "failed" ∨
        e.status = some "stopped"))) :
    (run_agent_background st0 rid iid events (fun i => decide (k ≤ i))).2 = some "stopped" ∧
    (run_agent_background st0 rid iid events (fun i => decide (k ≤ i))).1.dbStatus
      = some ("stopped", none) ∧
    lrangeAll (run_agent_background st0 rid iid events (fun i => decide (k ≤ i))).1
        ("agent_run:" ++ rid ++ ":responses")
      = (events.take k).map dumpEvent := by
  have hloop := coordLoop_stopped ("agent_run:" ++ rid ++ ":responses")
      ("agent_run:" ++ rid ++ ":new_response") (fun i => decide (k ≤ i)) k events 0
      (kvSet { st0 with kv := ("agent_run_lock:" ++ rid, iid) :: st0.kv }
        ("active_run:" ++ iid ++ ":" ++ rid) "running")
      (fun j => rfl) (Nat.zero_le k) (by omega) (by simpa using h4)
  simp only [Nat.sub_zero] at hloop
  obtain ⟨F, hFcoord, hFlrange⟩ :
      ∃ F, coordLoop (kvSet { st0 with kv := ("agent_run_lock:" ++ rid, iid) :: st0.kv }
          ("active_run:" ++ iid ++ ":" ++ rid) "running")
          ("agent_run:" ++ rid ++ ":responses") ("agent_run:" ++ rid ++ ":new_response")
          (fun i => decide (k ≤ i)) events 0 = (F, "stopped", none)
        ∧ lrangeAll F ("agent_run:" ++ rid ++ ":responses")
            = (events.take k).map dumpEvent := by
    refine ⟨_, hloop, ?_⟩
    rw [lrangeAll_pushLoop, lrangeAll_kvSet]
    rw [show lrangeAll { st0 with kv := ("agent_run_lock:" ++ rid, iid) :: st0.kv }
        ("agent_run:" ++ rid ++ ":responses")
      = lrangeAll st0 ("agent_run:" ++ rid ++ ":responses") from rfl]
    rw [h2]
    rfl
  have hrab : run_agent_background st0 rid iid events (fun i => decide (k ≤ i))
      = (kvDelete (kvDelete (publish { F with dbStatus := some ("stopped", none) }
          ("agent_run:" ++ rid ++ ":control") "STOP")
          ("active_run:" ++ iid ++ ":" ++ rid)) ("agent_run_lock:" ++ rid),
        some "stopped") := by
    rw [run_agent_background]
    simp [kvSetNX, h1]
    rw [hFcoord]
    simp +decide
  refine ⟨by rw [hrab], by rw [hrab]; rfl, ?_⟩
  rw [hrab]
  rw [show ∀ (s : SysState) (a b c d f : String),
      lrangeAll (kvDelete (kvDelete (publish s a b) c) d) f = lrangeAll s f
    from fun s a b c d f => rfl]
  rw [show ∀ (s : SysState) (d : Option (String × Option String)) (f : String),
      lrangeAll { s with dbStatus := d } f = lrangeAll s f from fun s d f => rfl]
  exact hFlrange

/-- C9 witness: the theorem applied to an empty initial state, two plain
chunk events and a stop signal observed from index 1 on. -/
theorem C9_witness :
    ((1 : Nat) < ([⟨"chunk", none, none⟩, ⟨"chunk", none, none⟩] : List AEvent).length) ∧
      lrangeAll (run_agent_background ⟨[], [], [], none⟩ "r" "i"
          [⟨"chunk", none, none⟩, ⟨"chunk", none, none⟩] (fun i => decide (1 ≤ i))).1
          ("agent_run:" ++ "r" ++ ":responses")
        = (([⟨"chunk", none, none⟩, ⟨"chunk", none, none⟩] : List AEvent).take 1).map
            dumpEvent :=
  ⟨by decide,
    (C9_theorem ⟨[], [], [], none⟩ "r" "i"
      [⟨"chunk", none, none⟩, ⟨"chunk", none, none⟩] 1 rfl rfl (by decide)
      (by decide)).2.2⟩

end RunCoordinator

end Suna
